import Mathlib

/-!
CHIP-8 interpreter (`src/chip8.c`): shallow embedding and verified properties.

The machine state `chip8_t` of the C source is embedded as a Lean structure.
C arrays are functions from an index to a value; every array access of the
source is bounds-checked by the embedding and an access outside the array
(undefined behaviour in C) ends the step with a `Fault`.  Machine integers
are naturals with explicit reduction modulo `2^8`, `2^16` or `2^32` at every
place where the C code stores into a `uint8_t`, `uint16_t` or computes in
`uint32_t`.
-/

namespace Chip8

/-! ## Data model -/

/-- Run state of the emulator, `emu_state_t`. -/
inductive emu_state_t where
  | QUIT
  | RUNNING
  | PAUSED
  deriving DecidableEq

/-- Configuration record, `config_t`. -/
structure config_t where
  window_width : Nat
  window_height : Nat
  fg_color : Nat
  bg_color : Nat
  scale_factor : Nat
  pixelated : Bool
  insts_per_second : Nat
  square_wave_freq : Nat
  audio_sample_rate : Nat
  volume : Int

/-- Defaults written by `set_config`. -/
def set_config : config_t :=
  { window_width := 64
    window_height := 32
    fg_color := 0xFFFFFFFF
    bg_color := 0x000000FF
    scale_factor := 20
    pixelated := true
    insts_per_second := 700
    square_wave_freq := 440
    audio_sample_rate := 44100
    volume := 3000 }

/-- Decoded instruction, `instruction_t`. -/
structure instruction_t where
  opcode : Nat
  NNN : Nat
  NN : Nat
  N : Nat
  X : Nat
  Y : Nat
  deriving DecidableEq

/-- Machine state, `chip8_t`.  `stack_ptr` is the offset of the stack pointer
from `&stack[0]`, counted in stack entries. -/
structure chip8_t where
  state : emu_state_t
  ram : Nat → Nat
  display : Nat → Bool
  stack : Nat → Nat
  stack_ptr : Nat
  V : Nat → Nat
  I : Nat
  PC : Nat
  delay_timer : Nat
  sound_timer : Nat
  keypad : Nat → Bool
  rom_name : String
  inst : instruction_t
  draw : Bool

/-- Undefined behaviour that a step of the C program can run into. -/
inductive Fault where
  | ram_oob
  | display_oob
  | stack_oob
  | keypad_oob
  | div_by_zero
  deriving DecidableEq

/-- Size of `ram`. -/
def RAM_SIZE : Nat := 4096

/-- Size of `display`, `64 * 32`. -/
def DISPLAY_SIZE : Nat := 64 * 32

/-- Size of `stack`. -/
def STACK_SIZE : Nat := 12

/-- Size of `keypad`. -/
def KEYPAD_SIZE : Nat := 16

/-- Array store `a[i] = v`. -/
def store {α : Type} (a : Nat → α) (i : Nat) (v : α) : Nat → α :=
  fun k => if k = i then v else a k

/-- Conversion of a C `int` value to `uint8_t`. -/
def u8 (z : Int) : Nat := (z % 256).toNat

/-- Conversion of a C `int` value to `uint16_t`. -/
def u16 (z : Int) : Nat := (z % 65536).toNat

/-- A `uint32_t` value. -/
def u32 (n : Nat) : Nat := n % 4294967296

/-- The values a real `chip8_t` can hold: every field fits its C type. -/
structure chip8_t.WF (s : chip8_t) : Prop where
  ram_byte : ∀ i, i < RAM_SIZE → s.ram i < 256
  V_byte : ∀ i, i < 16 → s.V i < 256
  stack_word : ∀ i, i < STACK_SIZE → s.stack i < 65536
  I_word : s.I < 65536
  PC_word : s.PC < 65536
  delay_byte : s.delay_timer < 256
  sound_byte : s.sound_timer < 256

/-! ## Decoder (`emulate_instructions`, lines 546-555) -/

/-- Fields filled out from the opcode. -/
def decode (opcode : Nat) : instruction_t :=
  { opcode := opcode
    NNN := opcode &&& 0x0FFF
    NN := (opcode &&& 0x00FF) % 256
    N := (opcode &&& 0x000F) % 256
    X := ((opcode &&& 0x0F00) >>> 8) % 256
    Y := ((opcode &&& 0x00F0) >>> 4) % 256 }

/-- Fetch: read the big-endian opcode at `PC`, advance `PC` by 2 and decode. -/
def fetch (chip8 : chip8_t) : Except Fault chip8_t :=
  if chip8.PC < RAM_SIZE then
    if chip8.PC + 1 < RAM_SIZE then
      let opcode := ((chip8.ram chip8.PC <<< 8) ||| chip8.ram (chip8.PC + 1)) % 65536
      .ok { chip8 with inst := decode opcode, PC := (chip8.PC + 2) % 65536 }
    else .error .ram_oob
  else .error .ram_oob

/-! ## Executor (`emulate_instructions`, lines 562-776) -/

/-- The test `(sprite_data & (0x80 >> j)) != 0` of line 682. -/
def sprite_bit (sprite_data j : Nat) : Bool := (sprite_data &&& (0x80 >>> j)) != 0

/-- Inner loop of draw-sprite (lines 678-691): `n` is the number of iterations
left, `8 - j`. -/
def draw_cols (config : config_t) (sprite_data y_coord : Nat) :
    Nat → Nat → Nat → chip8_t → Except Fault chip8_t
  | 0, _, _, chip8 => .ok chip8
  | n + 1, j, x_coord, chip8 =>
    let idx := u32 (y_coord * u32 config.window_width + x_coord)
    if idx < DISPLAY_SIZE then
      let pixel := chip8.display idx
      let bit := sprite_bit sprite_data j
      let chip8 := if bit && pixel then { chip8 with V := store chip8.V 0xF 1 } else chip8
      let chip8 := { chip8 with display := store chip8.display idx (xor pixel bit) }
      let x_coord := (x_coord + 1) % 256
      if x_coord ≥ u32 config.window_width then .ok chip8
      else draw_cols config sprite_data y_coord n (j + 1) x_coord chip8
    else .error .display_oob

/-- Outer loop of draw-sprite (lines 671-695): `n` is the number of rows left,
`N - i`. -/
def draw_rows (config : config_t) (org_X : Nat) :
    Nat → Nat → Nat → chip8_t → Except Fault chip8_t
  | 0, _, _, chip8 => .ok chip8
  | n + 1, i, y_coord, chip8 =>
    if chip8.I + i < RAM_SIZE then
      let sprite_data := chip8.ram (chip8.I + i)
      match draw_cols config sprite_data y_coord 8 0 org_X chip8 with
      | .error e => .error e
      | .ok chip8 =>
        let y_coord := (y_coord + 1) % 256
        if y_coord ≥ u32 config.window_height then .ok chip8
        else draw_rows config org_X n (i + 1) y_coord chip8
    else .error .ram_oob

/-- Opcode DXYN (lines 663-698). -/
def draw_sprite (chip8 : chip8_t) (config : config_t) : Except Fault chip8_t :=
  if u32 config.window_width = 0 then .error .div_by_zero
  else if u32 config.window_height = 0 then .error .div_by_zero
  else
    let x_coord := (chip8.V chip8.inst.X % u32 config.window_width) % 256
    let y_coord := (chip8.V chip8.inst.Y % u32 config.window_height) % 256
    let org_X := x_coord
    let chip8 := { chip8 with V := store chip8.V 0xF 0 }
    match draw_rows config org_X chip8.inst.N 0 y_coord chip8 with
    | .error e => .error e
    | .ok chip8 => .ok { chip8 with draw := true }

/-- Key scan of opcode FX0A (lines 717-724): `n` is the number of iterations
left, `16 - i`; the result is the first pressed key, if any. -/
def scan_keypad (keypad : Nat → Bool) : Nat → Nat → Option Nat
  | 0, _ => none
  | n + 1, i => if keypad i then some i else scan_keypad keypad n (i + 1)

/-- Loop of opcode FX33 (lines 747-750): `n = i + 1` counts down to 0. -/
def bcd_loop : Nat → Nat → chip8_t → Except Fault chip8_t
  | 0, _, chip8 => .ok chip8
  | i + 1, bcd, chip8 =>
    if chip8.I + i < RAM_SIZE then
      bcd_loop i (bcd / 10) { chip8 with ram := store chip8.ram (chip8.I + i) (bcd % 10) }
    else .error .ram_oob

/-- Loop of opcode FX55 (lines 755-758): `n` is the number of iterations
left, `X + 1 - i`. -/
def reg_dump : Nat → Nat → chip8_t → Except Fault chip8_t
  | 0, _, chip8 => .ok chip8
  | n + 1, i, chip8 =>
    if chip8.I + i < RAM_SIZE then
      reg_dump n (i + 1) { chip8 with ram := store chip8.ram (chip8.I + i) (chip8.V i) }
    else .error .ram_oob

/-- Loop of opcode FX65 (lines 763-766): `n` is the number of iterations
left, `X + 1 - i`. -/
def reg_load : Nat → Nat → chip8_t → Except Fault chip8_t
  | 0, _, chip8 => .ok chip8
  | n + 1, i, chip8 =>
    if chip8.I + i < RAM_SIZE then
      reg_load n (i + 1) { chip8 with V := store chip8.V i (chip8.ram (chip8.I + i)) }
    else .error .ram_oob

/-- Dispatch of the decoded instruction (the `switch` of lines 562-776);
`rand` is the value returned by the call of `rand()`. -/
def execute (chip8 : chip8_t) (config : config_t) (rand : Nat) : Except Fault chip8_t :=
  let X := chip8.inst.X
  let Y := chip8.inst.Y
  let NN := chip8.inst.NN
  let NNN := chip8.inst.NNN
  match (chip8.inst.opcode >>> 12) &&& 0xF with
  | 0x0 =>
    if NN = 0xE0 then
      .ok { chip8 with display := fun _ => false, draw := true }
    else if NN = 0xEE then
      if 0 < chip8.stack_ptr ∧ chip8.stack_ptr - 1 < STACK_SIZE then
        .ok { chip8 with stack_ptr := chip8.stack_ptr - 1, PC := chip8.stack (chip8.stack_ptr - 1) }
      else .error .stack_oob
    else .ok chip8
  | 0x1 => .ok { chip8 with PC := NNN }
  | 0x2 =>
    if chip8.stack_ptr < STACK_SIZE then
      .ok { chip8 with stack := store chip8.stack chip8.stack_ptr chip8.PC,
                       stack_ptr := chip8.stack_ptr + 1, PC := NNN }
    else .error .stack_oob
  | 0x3 =>
    if chip8.V X = NN then .ok { chip8 with PC := (chip8.PC + 2) % 65536 } else .ok chip8
  | 0x4 =>
    if chip8.V X ≠ NN then .ok { chip8 with PC := (chip8.PC + 2) % 65536 } else .ok chip8
  | 0x5 =>
    if chip8.inst.N = 0 ∧ chip8.V X = chip8.V Y then
      .ok { chip8 with PC := (chip8.PC + 2) % 65536 }
    else .ok chip8
  | 0x6 => .ok { chip8 with V := store chip8.V X NN }
  | 0x7 => .ok { chip8 with V := store chip8.V X ((chip8.V X + NN) % 256) }
  | 0x8 =>
    match chip8.inst.N with
    | 0x0 => .ok { chip8 with V := store chip8.V X (chip8.V Y) }
    | 0x1 => .ok { chip8 with V := store chip8.V X ((chip8.V X ||| chip8.V Y) % 256) }
    | 0x2 => .ok { chip8 with V := store chip8.V X ((chip8.V X &&& chip8.V Y) % 256) }
    | 0x3 => .ok { chip8 with V := store chip8.V X ((chip8.V X ^^^ chip8.V Y) % 256) }
    | 0x4 =>
      let chip8 := { chip8 with
        V := store chip8.V 0xF (if (chip8.V X + chip8.V Y) % 65536 > 255 then 1 else 0) }
      .ok { chip8 with V := store chip8.V X ((chip8.V X + chip8.V Y) % 256) }
    | 0x5 =>
      let chip8 := { chip8 with V := store chip8.V 0xF (if chip8.V X ≥ chip8.V Y then 1 else 0) }
      .ok { chip8 with V := store chip8.V X (u8 ((chip8.V X : Int) - (chip8.V Y : Int))) }
    | 0x6 =>
      let chip8 := { chip8 with V := store chip8.V 0xF ((chip8.V X &&& 0x01) % 256) }
      .ok { chip8 with V := store chip8.V X ((chip8.V X >>> 1) % 256) }
    | 0x7 =>
      let chip8 := { chip8 with V := store chip8.V 0xF (if chip8.V Y ≥ chip8.V X then 1 else 0) }
      .ok { chip8 with V := store chip8.V X (u8 ((chip8.V Y : Int) - (chip8.V X : Int))) }
    | 0xE =>
      let chip8 := { chip8 with V := store chip8.V 0xF (((chip8.V X &&& 0x80) >>> 7) % 256) }
      .ok { chip8 with V := store chip8.V X ((chip8.V X <<< 1) % 256) }
    | _ => .ok chip8
  | 0x9 =>
    if chip8.inst.N = 0 ∧ chip8.V X ≠ chip8.V Y then
      .ok { chip8 with PC := (chip8.PC + 2) % 65536 }
    else .ok chip8
  | 0xA => .ok { chip8 with I := NNN }
  | 0xB => .ok { chip8 with PC := (chip8.V 0x0 + NNN) % 65536 }
  | 0xC => .ok { chip8 with V := store chip8.V X (((rand % 256) &&& NN) % 256) }
  | 0xD => draw_sprite chip8 config
  | 0xE =>
    if NN = 0x9E then
      if chip8.V X < KEYPAD_SIZE then
        if chip8.keypad (chip8.V X) = true then .ok { chip8 with PC := (chip8.PC + 2) % 65536 }
        else .ok chip8
      else .error .keypad_oob
    else if NN = 0xA1 then
      if chip8.V X < KEYPAD_SIZE then
        if chip8.keypad (chip8.V X) = false then .ok { chip8 with PC := (chip8.PC + 2) % 65536 }
        else .ok chip8
      else .error .keypad_oob
    else .ok chip8
  | 0xF =>
    match NN with
    | 0x0A =>
      match scan_keypad chip8.keypad KEYPAD_SIZE 0 with
      | some i => .ok { chip8 with V := store chip8.V X i }
      | none => .ok { chip8 with PC := u16 ((chip8.PC : Int) - 2) }
    | 0x1E => .ok { chip8 with I := (chip8.I + chip8.V X) % 65536 }
    | 0x07 => .ok { chip8 with V := store chip8.V X chip8.delay_timer }
    | 0x15 => .ok { chip8 with delay_timer := chip8.V X }
    | 0x18 => .ok { chip8 with sound_timer := chip8.V X }
    | 0x29 => .ok { chip8 with I := (chip8.V X * 5) % 65536 }
    | 0x33 => bcd_loop 3 (chip8.V X) chip8
    | 0x55 => reg_dump (X + 1) 0 chip8
    | 0x65 => reg_load (X + 1) 0 chip8
    | _ => .ok chip8
  | _ => .ok chip8

/-- One call of `emulate_instructions`: fetch and decode, then dispatch. -/
def emulate_instructions (chip8 : chip8_t) (config : config_t) (rand : Nat) :
    Except Fault chip8_t :=
  match fetch chip8 with
  | .error e => .error e
  | .ok chip8 => execute chip8 config rand

/-! ## Timers (`update_timers`, lines 780-794) -/

/-- The call `SDL_PauseAudioDevice(sdl.dev, pause_on)` made by `update_timers`
is returned as the second component: `true` when the device is unpaused. -/
def update_timers (chip8 : chip8_t) : chip8_t × Bool :=
  let chip8 := if chip8.delay_timer > 0 then
      { chip8 with delay_timer := u8 ((chip8.delay_timer : Int) - 1) } else chip8
  if chip8.sound_timer > 0 then
    ({ chip8 with sound_timer := u8 ((chip8.sound_timer : Int) - 1) }, true)
  else (chip8, false)

/-! ## Load (`init_chip8`, lines 157-221) -/

/-- Failure exits of `init_chip8`, one for each `SDL_Log` message that is
followed by `return false`: the file could not be opened, the file is too big,
the file could not be read into memory. -/
inductive LoadError where
  | rom_invalid
  | rom_too_big
  | rom_not_read
  deriving DecidableEq

/-- Glyph table `font` of `init_chip8`, 16 glyphs of 5 bytes. -/
def font : List Nat :=
  [0xF0, 0x90, 0x90, 0x90, 0xF0,
   0x20, 0x60, 0x20, 0x20, 0x70,
   0xF0, 0x10, 0xF0, 0x80, 0xF0,
   0xF0, 0x10, 0xF0, 0x10, 0xF0,
   0x90, 0x90, 0xF0, 0x10, 0x10,
   0xF0, 0x80, 0xF0, 0x10, 0xF0,
   0xF0, 0x80, 0xF0, 0x90, 0xF0,
   0xF0, 0x10, 0x20, 0x40, 0x40,
   0xF0, 0x90, 0xF0, 0x90, 0xF0,
   0xF0, 0x90, 0xF0, 0x10, 0xF0,
   0xF0, 0x90, 0xF0, 0x90, 0x90,
   0xE0, 0x90, 0xE0, 0x90, 0xE0,
   0xF0, 0x80, 0x80, 0x80, 0xF0,
   0xE0, 0x90, 0x90, 0x90, 0xE0,
   0xF0, 0x80, 0xF0, 0x80, 0xF0,
   0xF0, 0x80, 0xF0, 0x80, 0x80]

/-- Result of the C library call `fread(ptr, size, nmemb, stream)` on a stream
positioned at the start of a file with contents `file`: the number of complete
items read, which is 0 when `size` or `nmemb` is 0 (ISO C, 7.21.8.1). -/
def fread (size nmemb : Nat) (file : List Nat) : Nat :=
  if size = 0 ∨ nmemb = 0 then 0 else min nmemb (file.length / size)

/-- Bytes `bytes` copied to `ram[base ..]` (`memcpy`, and the store done by
`fread`). -/
def copy_bytes (ram : Nat → Nat) (base : Nat) (bytes : List Nat) : Nat → Nat := fun i =>
  if base ≤ i ∧ i < base + bytes.length then bytes.getD (i - base) 0 else ram i

/-- Function `init_chip8`.  `rom` is what the file system holds under
`rom_name`: `none` when `fopen` fails, otherwise the bytes of the file.  A
failure returns no state (the caller exits or ignores the machine); the null
`stack_ptr` and `rom_name` left by `memset` are overwritten before a successful
return. -/
def init_chip8 (chip8 : chip8_t) (rom_name : String) (rom : Option (List Nat)) :
    Except LoadError chip8_t :=
  let entry_point := 0x200
  let chip8 : chip8_t :=
    { chip8 with
      state := .QUIT, ram := fun _ => 0, display := fun _ => false, stack := fun _ => 0,
      stack_ptr := 0, V := fun _ => 0, I := 0, PC := 0, delay_timer := 0, sound_timer := 0,
      keypad := fun _ => false, rom_name := "",
      inst := { opcode := 0, NNN := 0, NN := 0, N := 0, X := 0, Y := 0 }, draw := false }
  let chip8 := { chip8 with ram := copy_bytes chip8.ram 0 font }
  match rom with
  | none => .error .rom_invalid
  | some file =>
    let rom_size := file.length
    let max_size := RAM_SIZE - entry_point
    if rom_size > max_size then .error .rom_too_big
    else if fread rom_size 1 file ≠ 1 then .error .rom_not_read
    else
      let chip8 := { chip8 with ram := copy_bytes chip8.ram entry_point (file.take rom_size) }
      .ok { chip8 with
        state := .RUNNING, PC := entry_point, rom_name := rom_name, stack_ptr := 0,
        sound_timer := 0, delay_timer := 0, draw := false }

/-! ## Closed forms of the loops and example states -/

/-- A state with `V[0] = 200`, `V[1] = 100` and the opcode `hi lo` at `PC = 0x200`. -/
def alu_state (hi lo : Nat) : chip8_t :=
  { state := .RUNNING
    ram := fun i => if i = 0x200 then hi else if i = 0x201 then lo else 0
    display := fun _ => false
    stack := fun _ => 0
    stack_ptr := 0
    V := fun i => if i = 0 then 200 else if i = 1 then 100 else 0
    I := 0
    PC := 0x200
    delay_timer := 0
    sound_timer := 0
    keypad := fun _ => false
    rom_name := ""
    inst := decode 0
    draw := false }

/-- Display after the inner loop has run `n` more columns from column `x`,
sprite bit index `j`, on row `y`. -/
def cols_display (sprite_data y n j x : Nat) (d : Nat → Bool) : Nat → Bool := fun p =>
  if y * 64 + x ≤ p ∧ p < y * 64 + x + n ∧ p < y * 64 + 64 then
    xor (d p) (sprite_bit sprite_data (j + (p - (y * 64 + x))))
  else d p

/-- Some set sprite bit of the `n` remaining columns lands on a set pixel. -/
def cols_collide (sprite_data y n j x : Nat) (d : Nat → Bool) : Prop :=
  ∃ c, c < n ∧ x + c < 64 ∧ sprite_bit sprite_data (j + c) = true ∧ d (y * 64 + x + c) = true

/-- One iteration of the inner loop at column `x`, sprite bit `j`, row `y`. -/
def col_step (sprite_data y j x : Nat) (s : chip8_t) : chip8_t :=
  { s with
    display := store s.display (y * 64 + x)
      (xor (s.display (y * 64 + x)) (sprite_bit sprite_data j)),
    V := if (sprite_bit sprite_data j && s.display (y * 64 + x)) = true
      then store s.V 0xF 1 else s.V }

/-- Display after the outer loop has run `n` more rows from row `y`, sprite
row index `i`, with the sprite stored at `ram[I ..]` and origin column `x0`. -/
def rows_display (ram : Nat → Nat) (I x0 n i y : Nat) (d : Nat → Bool) : Nat → Bool := fun p =>
  if y ≤ p / 64 ∧ p / 64 < y + n ∧ p / 64 < 32 ∧ x0 ≤ p % 64 ∧ p % 64 < x0 + 8 then
    xor (d p) (sprite_bit (ram (I + i + (p / 64 - y))) (p % 64 - x0))
  else d p

/-- Some set sprite bit of the `n` remaining rows lands on a set pixel. -/
def rows_collide (ram : Nat → Nat) (I x0 n i y : Nat) (d : Nat → Bool) : Prop :=
  ∃ r c, r < n ∧ y + r < 32 ∧ c < 8 ∧ x0 + c < 64 ∧
    sprite_bit (ram (I + i + r)) c = true ∧ d ((y + r) * 64 + (x0 + c)) = true

/-- A state with the opcode `hi lo` at `PC = 0x200` and again at `0x202`, the
sprite rows `0xFF 0x81` at `I = 0x300`, `V[0] = 60`, `V[1] = 31`, and the
pixels of display row 31 set from column 62 on. -/
def draw_state (hi lo : Nat) : chip8_t :=
  { state := .RUNNING
    ram := fun i =>
      if i = 0x200 then hi else if i = 0x201 then lo
      else if i = 0x202 then hi else if i = 0x203 then lo
      else if i = 0x300 then 0xFF else if i = 0x301 then 0x81 else 0
    display := fun p => decide (31 * 64 + 62 ≤ p ∧ p < 2048)
    stack := fun _ => 0
    stack_ptr := 0
    V := fun i => if i = 0 then 60 else if i = 1 then 31 else 0
    I := 0x300
    PC := 0x200
    delay_timer := 0
    sound_timer := 0
    keypad := fun _ => false
    rom_name := ""
    inst := decode 0
    draw := false }

/-- A state with the opcode `hi lo` at `PC = 0x200`, `I = 0x300`, registers
`V[i] = 255 - i` and the given keypad. -/
def misc_state (hi lo : Nat) (keypad : Nat → Bool) : chip8_t :=
  { state := .RUNNING
    ram := fun i => if i = 0x200 then hi else if i = 0x201 then lo else 0
    display := fun _ => false
    stack := fun _ => 0
    stack_ptr := 0
    V := fun i => 255 - i
    I := 0x300
    PC := 0x200
    delay_timer := 0
    sound_timer := 0
    keypad := keypad
    rom_name := ""
    inst := decode 0
    draw := false }

/-- Memory after `V[i .. i + n - 1]` has been copied to `ram[I + i ..]`. -/
def dumped_ram (ram V : Nat → Nat) (I i n : Nat) : Nat → Nat := fun a =>
  if I + i ≤ a ∧ a < I + i + n then V (a - I) else ram a

/-- Registers after `ram[I + i .. I + i + n - 1]` has been copied to `V[i ..]`. -/
def loaded_V (ram V : Nat → Nat) (I i n : Nat) : Nat → Nat := fun k =>
  if i ≤ k ∧ k < i + n then ram (I + k) else V k

/-- A state with FF55 at `PC = 0x200`, FF65 at `0x202`, `I = 0x300` and
registers `V[i] = 255 - i`. -/
def round_trip_state : chip8_t :=
  { state := .RUNNING
    ram := fun i =>
      if i = 0x200 then 0xFF else if i = 0x201 then 0x55
      else if i = 0x202 then 0xFF else if i = 0x203 then 0x65 else 0
    display := fun _ => false
    stack := fun _ => 0
    stack_ptr := 0
    V := fun i => 255 - i
    I := 0x300
    PC := 0x200
    delay_timer := 0
    sound_timer := 0
    keypad := fun _ => false
    rom_name := ""
    inst := decode 0
    draw := false }

/-- A state with `delay_timer = d`, `sound_timer = snd` and all else as in
`alu_state 0 0`. -/
def timer_state (d snd : Nat) : chip8_t :=
  { alu_state 0 0 with delay_timer := d, sound_timer := snd }

/-- A state at stack depth 3 with the call 2ABC at `PC = 0x200` and the return
00EE at the call target `0xABC`. -/
def call_state : chip8_t :=
  { state := .RUNNING
    ram := fun i =>
      if i = 0x200 then 0x2A else if i = 0x201 then 0xBC
      else if i = 0xABC then 0x00 else if i = 0xABD then 0xEE else 0
    display := fun _ => false
    stack := fun i => if i < 3 then 0x300 + i else 0
    stack_ptr := 3
    V := fun _ => 0
    I := 0
    PC := 0x200
    delay_timer := 0
    sound_timer := 0
    keypad := fun _ => false
    rom_name := ""
    inst := decode 0
    draw := false }

/-- Outcome of a conditional skip from state `s`: the step succeeds, `PC` ends 4
above its old value if `cond` holds and 2 above otherwise, and registers, `I`,
memory, display, stack, stack pointer and both timers are unchanged. -/
def skip_outcome (s : chip8_t) (config : config_t) (rand : Nat) (cond : Prop) : Prop :=
  ∃ s', emulate_instructions s config rand = .ok s' ∧
    (cond → s'.PC = s.PC + 4) ∧ (¬ cond → s'.PC = s.PC + 2) ∧
    s'.V = s.V ∧ s'.I = s.I ∧ s'.ram = s.ram ∧ s'.display = s.display ∧
    s'.stack = s.stack ∧ s'.stack_ptr = s.stack_ptr ∧
    s'.delay_timer = s.delay_timer ∧ s'.sound_timer = s.sound_timer

/-- A state with the three opcodes 6005 6102 8014 stored from `PC = 0x200` on
and arbitrary-looking register contents. -/
def program_state : chip8_t :=
  { state := .RUNNING
    ram := fun i =>
      if i = 0x200 then 0x60 else if i = 0x201 then 0x05
      else if i = 0x202 then 0x61 else if i = 0x203 then 0x02
      else if i = 0x204 then 0x80 else if i = 0x205 then 0x14 else 0
    display := fun _ => false
    stack := fun _ => 0
    stack_ptr := 0
    V := fun i => 255 - i
    I := 0
    PC := 0x200
    delay_timer := 0
    sound_timer := 0
    keypad := fun _ => false
    rom_name := ""
    inst := decode 0
    draw := false }

/-- A state with `V[0] = 200`, `V[1] = 100`, `V[15] = 0x83` and the opcode
`hi lo` at `PC = 0x200`. -/
def flag_state (hi lo : Nat) : chip8_t :=
  { alu_state hi lo with V := fun i => if i = 0 then 200 else if i = 1 then 100
                                else if i = 15 then 0x83 else 0 }

/-- Register `V[i]` after a step, if the step succeeded. -/
def V_after (r : Except Fault chip8_t) (i : Nat) : Option Nat :=
  match r with
  | .ok s => some (s.V i)
  | .error _ => none

/-- Outcome of an opcode that does nothing: the step succeeds, `PC` ends 2 above
its old value and every other field of the machine state apart from the
decoded instruction is unchanged. -/
def noop_outcome (s : chip8_t) (config : config_t) (rand : Nat) : Prop :=
  ∃ s', emulate_instructions s config rand = .ok s' ∧
    s'.PC = s.PC + 2 ∧ s'.V = s.V ∧ s'.I = s.I ∧ s'.ram = s.ram ∧ s'.display = s.display ∧
    s'.stack = s.stack ∧ s'.stack_ptr = s.stack_ptr ∧
    s'.delay_timer = s.delay_timer ∧ s'.sound_timer = s.sound_timer ∧
    s'.keypad = s.keypad ∧ s'.draw = s.draw ∧ s'.state = s.state

/-- The fault a step ended with, if any. -/
def fault_of (r : Except Fault chip8_t) : Option Fault :=
  match r with
  | .ok _ => none
  | .error e => some e

/-- A numeric field of the state after a step, if the step succeeded. -/
def field_after (r : Except Fault chip8_t) (f : chip8_t → Nat) : Option Nat :=
  match r with
  | .ok s => some (f s)
  | .error _ => none

/-- A state with the opcode `hi lo` at `PC = 0x200`, `V[0] = v` and the keys 0
and 15 pressed. -/
def key_state (hi lo v : Nat) : chip8_t :=
  { alu_state hi lo with
    V := fun i => if i = 0 then v else 0
    keypad := fun k => decide (k = 0 ∨ k = 15) }

/-- The state a step ended in, or `d` if the step ended with a fault. -/
def state_after (r : Except Fault chip8_t) (d : chip8_t) : chip8_t :=
  match r with
  | .ok s => s
  | .error _ => d

/-- The loop `for (...) emulate_instructions(&chip8, config)` of `main`, run for
`n` instructions, with `rand()` returning `rand` each time. -/
def run (config : config_t) (rand : Nat) : Nat → chip8_t → Except Fault chip8_t
  | 0, s => .ok s
  | n + 1, s =>
    match emulate_instructions s config rand with
    | .error e => .error e
    | .ok s' => run config rand n s'

/-- States the machine can be in while `main` runs: the state after a
successful `init_chip8` (first load or reset), and from there any step of
`emulate_instructions` that completes, any timer tick and any change that
`handle_inputs` makes to the keypad and to the run state. -/
inductive Reachable (config : config_t) : chip8_t → Prop where
  | load (chip8 : chip8_t) (rom_name : String) (rom : Option (List Nat)) (s : chip8_t) :
      init_chip8 chip8 rom_name rom = .ok s → Reachable config s
  | step (s : chip8_t) (rand : Nat) (s' : chip8_t) :
      Reachable config s → emulate_instructions s config rand = .ok s' → Reachable config s'
  | tick (s : chip8_t) : Reachable config s → Reachable config (update_timers s).1
  | input (s : chip8_t) (keypad : Nat → Bool) (state : emu_state_t) :
      Reachable config s → Reachable config { s with keypad := keypad, state := state }

/-- The fields a loop of the executor never writes: stack pointer, stack, `I`
and `PC` are the same in `s` and `s'`. -/
def ctrl_eq (s s' : chip8_t) : Prop :=
  s'.stack_ptr = s.stack_ptr ∧ s'.stack = s.stack ∧ s'.I = s.I ∧ s'.PC = s.PC

/-- The state that a successful `init_chip8` of the file `file` returns. -/
def loaded_state (rom_name : String) (file : List Nat) : chip8_t :=
  { state := .RUNNING
    ram := copy_bytes (copy_bytes (fun _ => 0) 0 font) 0x200 file
    display := fun _ => false
    stack := fun _ => 0
    stack_ptr := 0
    V := fun _ => 0
    I := 0
    PC := 0x200
    delay_timer := 0
    sound_timer := 0
    keypad := fun _ => false
    rom_name := rom_name
    inst := { opcode := 0, NNN := 0, NN := 0, N := 0, X := 0, Y := 0 }
    draw := false }

/-- A program of thirteen nested calls: the call at `0x200 + 2 * k` targets
`0x200 + 2 * (k + 1)`. -/
def nested_calls : List Nat :=
  [0x22, 0x02, 0x22, 0x04, 0x22, 0x06, 0x22, 0x08, 0x22, 0x0A, 0x22, 0x0C, 0x22, 0x0E,
   0x22, 0x10, 0x22, 0x12, 0x22, 0x14, 0x22, 0x16, 0x22, 0x18, 0x22, 0x1A]

/-- A state with the opcode `hi lo` at `PC = pc`, `I = 0xFFF` and every
register equal to 1. -/
def addr_state (pc hi lo : Nat) : chip8_t :=
  { alu_state 0 0 with
    ram := fun i => if i = pc then hi else if i = pc + 1 then lo else 0
    V := fun _ => 1
    I := 0xFFF
    PC := pc }

/-! ## Decoding lemmas -/

theorem and_shiftRight (x m i : Nat) : (x &&& m) >>> i = (x >>> i) &&& (m >>> i) := by
  apply Nat.eq_of_testBit_eq
  intro j
  simp [Nat.testBit_shiftRight]

theorem and_mask_12 (x : Nat) : x &&& 0x0FFF = x % 4096 :=
  Nat.and_pow_two_sub_one_eq_mod x 12

theorem and_mask_8 (x : Nat) : x &&& 0x00FF = x % 256 :=
  Nat.and_pow_two_sub_one_eq_mod x 8

theorem and_mask_4 (x : Nat) : x &&& 0x000F = x % 16 :=
  Nat.and_pow_two_sub_one_eq_mod x 4

theorem opcode_of_bytes (hi lo : Nat) (hhi : hi < 256) (hlo : lo < 256) :
    ((hi <<< 8) ||| lo) % 65536 = 256 * hi + lo := by
  have h := Nat.mul_add_lt_is_or (show lo < 2 ^ 8 from hlo) hi
  rw [Nat.shiftLeft_eq, Nat.mul_comm hi, ← h]
  norm_num
  omega

theorem decode_nibbles (k X Y N : Nat) (hk : k < 16) (hX : X < 16) (hY : Y < 16) (hN : N < 16) :
    decode (4096 * k + 256 * X + 16 * Y + N) =
      { opcode := 4096 * k + 256 * X + 16 * Y + N, NNN := 256 * X + 16 * Y + N,
        NN := 16 * Y + N, N := N, X := X, Y := Y } ∧
    ((4096 * k + 256 * X + 16 * Y + N) >>> 12) &&& 0xF = k := by
  have h1 : (0x0F00 : Nat) >>> 8 = 0xF := by decide
  have h2 : (0x00F0 : Nat) >>> 4 = 0xF := by decide
  refine ⟨?_, ?_⟩
  · simp only [decode, and_shiftRight, h1, h2]
    simp only [and_mask_12, and_mask_8, and_mask_4, Nat.shiftRight_eq_div_pow,
      instruction_t.mk.injEq]
    norm_num
    omega
  · rw [and_mask_4, Nat.shiftRight_eq_div_pow]
    norm_num
    omega

/-- Fetch of the opcode with nibbles `k X Y N` stored big-endian at `PC`. -/
theorem fetch_nibbles (s : chip8_t) (k X Y N : Nat)
    (hk : k < 16) (hX : X < 16) (hY : Y < 16) (hN : N < 16)
    (hpc : s.PC + 1 < RAM_SIZE) (hhi : s.ram s.PC = 16 * k + X)
    (hlo : s.ram (s.PC + 1) = 16 * Y + N) :
    fetch s = .ok { s with
      inst := { opcode := 4096 * k + 256 * X + 16 * Y + N, NNN := 256 * X + 16 * Y + N,
                NN := 16 * Y + N, N := N, X := X, Y := Y },
      PC := s.PC + 2 } := by
  have hop : ((s.ram s.PC <<< 8) ||| s.ram (s.PC + 1)) % 65536
      = 4096 * k + 256 * X + 16 * Y + N := by
    rw [opcode_of_bytes _ _ (by omega) (by omega)]; omega
  have hpc2 : (s.PC + 2) % 65536 = s.PC + 2 := by
    unfold RAM_SIZE at hpc; omega
  unfold fetch
  rw [if_pos (by omega), if_pos hpc]
  simp only [hop, hpc2, (decode_nibbles k X Y N hk hX hY hN).1]

theorem alu_state_WF (hi lo : Nat) (hhi : hi < 256) (hlo : lo < 256) : (alu_state hi lo).WF := by
  constructor <;> intros <;> simp only [alu_state] <;> (try split_ifs) <;> omega

/-! ## Register ALU operations (8XYN) -/

/-- Claim C1 (ALU add, opcode 8XY4): for `X ≠ 15`, `Y ≠ 15`, with `a = V[X]` and
`b = V[Y]` before the step, the step succeeds, `V[X] = (a + b) mod 256`
afterwards and `V[15]` is 1 if `a + b > 255` and 0 otherwise. -/
theorem alu_add_8XY4 (s : chip8_t) (config : config_t) (rand X Y : Nat)
    (hwf : s.WF) (hX : X < 15) (hY : Y < 15)
    (hpc : s.PC + 1 < RAM_SIZE)
    (hhi : s.ram s.PC = 0x80 + X) (hlo : s.ram (s.PC + 1) = 16 * Y + 4) :
    ∃ s', emulate_instructions s config rand = .ok s' ∧
      s'.V X = (s.V X + s.V Y) % 256 ∧
      s'.V 15 = if s.V X + s.V Y > 255 then 1 else 0 := by
  have hf := fetch_nibbles s 8 X Y 4 (by omega) (by omega) (by omega) (by omega) hpc hhi hlo
  have hk := (decode_nibbles 8 X Y 4 (by omega) (by omega) (by omega) (by omega)).2
  have ha := hwf.V_byte X (by omega)
  have hb := hwf.V_byte Y (by omega)
  simp only [emulate_instructions, hf, execute, hk]
  refine ⟨_, rfl, ?_, ?_⟩ <;> simp only [store] <;> split_ifs <;> omega

theorem alu_add_8XY4_witness :
    ∃ s', emulate_instructions (alu_state 0x80 0x14) set_config 0 = .ok s' ∧
      s'.V 0 = (200 + 100) % 256 ∧ s'.V 15 = 1 :=
  alu_add_8XY4 (alu_state 0x80 0x14) set_config 0 0 1
    (alu_state_WF 0x80 0x14 (by decide) (by decide)) (by decide) (by decide)
    (by decide) (by decide) (by decide)

/-- Claim C2 (ALU subtract, opcodes 8XY5 and 8XY7): for `X ≠ 15`, `Y ≠ 15`, with
`a = V[X]` and `b = V[Y]` before the step, 8XY5 leaves `V[X] = (a - b) mod 256`
and `V[15] = 1` iff `a ≥ b` (else 0); 8XY7 leaves `V[X] = (b - a) mod 256` and
`V[15] = 1` iff `b ≥ a` (else 0).  The differences are integer differences. -/
theorem alu_sub_8XY5_8XY7 (config : config_t) (rand X Y : Nat) (hX : X < 15) (hY : Y < 15) :
    (∀ s : chip8_t, s.WF → s.PC + 1 < RAM_SIZE →
      s.ram s.PC = 0x80 + X → s.ram (s.PC + 1) = 16 * Y + 5 →
      ∃ s', emulate_instructions s config rand = .ok s' ∧
        (s'.V X : Int) = ((s.V X : Int) - (s.V Y : Int)) % 256 ∧
        s'.V 15 = if s.V X ≥ s.V Y then 1 else 0) ∧
    (∀ s : chip8_t, s.WF → s.PC + 1 < RAM_SIZE →
      s.ram s.PC = 0x80 + X → s.ram (s.PC + 1) = 16 * Y + 7 →
      ∃ s', emulate_instructions s config rand = .ok s' ∧
        (s'.V X : Int) = ((s.V Y : Int) - (s.V X : Int)) % 256 ∧
        s'.V 15 = if s.V Y ≥ s.V X then 1 else 0) := by
  constructor
  · intro s hwf hpc hhi hlo
    have hf := fetch_nibbles s 8 X Y 5 (by omega) (by omega) (by omega) (by omega) hpc hhi hlo
    have hk := (decode_nibbles 8 X Y 5 (by omega) (by omega) (by omega) (by omega)).2
    have ha := hwf.V_byte X (by omega)
    have hb := hwf.V_byte Y (by omega)
    simp only [emulate_instructions, hf, execute, hk]
    refine ⟨_, rfl, ?_, ?_⟩ <;> simp only [store, u8] <;> split_ifs <;> omega
  · intro s hwf hpc hhi hlo
    have hf := fetch_nibbles s 8 X Y 7 (by omega) (by omega) (by omega) (by omega) hpc hhi hlo
    have hk := (decode_nibbles 8 X Y 7 (by omega) (by omega) (by omega) (by omega)).2
    have ha := hwf.V_byte X (by omega)
    have hb := hwf.V_byte Y (by omega)
    simp only [emulate_instructions, hf, execute, hk]
    refine ⟨_, rfl, ?_, ?_⟩ <;> simp only [store, u8] <;> split_ifs <;> omega

theorem alu_sub_8XY5_8XY7_witness :
    (∃ s', emulate_instructions (alu_state 0x81 0x05) set_config 0 = .ok s' ∧
        (s'.V 1 : Int) = ((100 : Int) - 200) % 256 ∧ s'.V 15 = 0) ∧
    (∃ s', emulate_instructions (alu_state 0x81 0x07) set_config 0 = .ok s' ∧
        (s'.V 1 : Int) = ((200 : Int) - 100) % 256 ∧ s'.V 15 = 1) :=
  ⟨(alu_sub_8XY5_8XY7 set_config 0 1 0 (by decide) (by decide)).1 (alu_state 0x81 0x05)
      (alu_state_WF 0x81 0x05 (by decide) (by decide)) (by decide) (by decide) (by decide),
   (alu_sub_8XY5_8XY7 set_config 0 1 0 (by decide) (by decide)).2 (alu_state 0x81 0x07)
      (alu_state_WF 0x81 0x07 (by decide) (by decide)) (by decide) (by decide) (by decide)⟩

theorem msb_of_byte (a : Nat) (ha : a < 256) : ((a &&& 0x80) >>> 7) % 256 = a / 128 := by
  have h1 : (0x80 : Nat) >>> 7 = 1 := by decide
  rw [and_shiftRight, h1, Nat.and_one_is_mod, Nat.shiftRight_eq_div_pow]
  norm_num
  omega

/-- Claim C3 (ALU shifts, opcodes 8XY6 and 8XYE): for `X ≠ 15` and any `Y`, with
`a = V[X]` before the step, 8XY6 leaves `V[15] = a mod 2` and `V[X] = a / 2`,
and 8XYE leaves `V[15] = a / 128` and `V[X] = (2 * a) mod 256`.  Neither result
depends on `V[Y]`: storing any other value `v` in `V[Y]` (for `Y ≠ X`) before
the step gives the same `V[X]` and `V[15]`. -/
theorem alu_shift_8XY6_8XYE (config : config_t) (rand X Y : Nat) (hX : X < 15) (hY : Y < 16) :
    (∀ s : chip8_t, s.WF → s.PC + 1 < RAM_SIZE →
      s.ram s.PC = 0x80 + X → s.ram (s.PC + 1) = 16 * Y + 6 →
      (∃ s', emulate_instructions s config rand = .ok s' ∧
        s'.V 15 = s.V X % 2 ∧ s'.V X = s.V X / 2) ∧
      (∀ v, Y ≠ X →
        ∃ s'', emulate_instructions { s with V := store s.V Y v } config rand = .ok s'' ∧
          s''.V 15 = s.V X % 2 ∧ s''.V X = s.V X / 2)) ∧
    (∀ s : chip8_t, s.WF → s.PC + 1 < RAM_SIZE →
      s.ram s.PC = 0x80 + X → s.ram (s.PC + 1) = 16 * Y + 0xE →
      (∃ s', emulate_instructions s config rand = .ok s' ∧
        s'.V 15 = s.V X / 128 ∧ s'.V X = (2 * s.V X) % 256) ∧
      (∀ v, Y ≠ X →
        ∃ s'', emulate_instructions { s with V := store s.V Y v } config rand = .ok s'' ∧
          s''.V 15 = s.V X / 128 ∧ s''.V X = (2 * s.V X) % 256)) := by
  have h15 : (15 : Nat) ≠ X := by omega
  have hX15 : X ≠ 15 := by omega
  constructor
  · intro s hwf hpc hhi hlo
    have hk := (decode_nibbles 8 X Y 6 (by omega) (by omega) (by omega) (by omega)).2
    have ha := hwf.V_byte X (by omega)
    have hh : (s.V X >>> 1) % 256 = s.V X / 2 := by
      rw [Nat.shiftRight_eq_div_pow]; norm_num; omega
    have hl : (s.V X &&& 0x01) % 256 = s.V X % 2 := by
      rw [Nat.and_one_is_mod]; omega
    constructor
    · have hf := fetch_nibbles s 8 X Y 6 (by omega) (by omega) (by omega) (by omega) hpc hhi hlo
      simp only [emulate_instructions, hf, execute, hk]
      refine ⟨_, rfl, ?_, ?_⟩
      · simp only [store, if_neg h15, if_true, hl]
      · simp only [store, if_neg hX15, if_true, hh]
    · intro v hYX
      have hf := fetch_nibbles { s with V := store s.V Y v } 8 X Y 6
        (by omega) (by omega) (by omega) (by omega) hpc hhi hlo
      have hXY : X ≠ Y := fun h => hYX h.symm
      simp only [emulate_instructions, hf, execute, hk]
      refine ⟨_, rfl, ?_, ?_⟩
      · simp only [store, if_neg h15, if_neg hXY, if_true, hl]
      · simp only [store, if_neg hX15, if_neg hXY, if_true, hh]
  · intro s hwf hpc hhi hlo
    have hk := (decode_nibbles 8 X Y 0xE (by omega) (by omega) (by omega) (by omega)).2
    have ha := hwf.V_byte X (by omega)
    have hh : (s.V X <<< 1) % 256 = (2 * s.V X) % 256 := by
      rw [Nat.shiftLeft_eq]; norm_num; omega
    have hl := msb_of_byte (s.V X) ha
    constructor
    · have hf := fetch_nibbles s 8 X Y 0xE (by omega) (by omega) (by omega) (by omega) hpc hhi hlo
      simp only [emulate_instructions, hf, execute, hk]
      refine ⟨_, rfl, ?_, ?_⟩
      · simp only [store, if_neg h15, if_true, hl]
      · simp only [store, if_neg hX15, if_true, hh]
    · intro v hYX
      have hf := fetch_nibbles { s with V := store s.V Y v } 8 X Y 0xE
        (by omega) (by omega) (by omega) (by omega) hpc hhi hlo
      have hXY : X ≠ Y := fun h => hYX h.symm
      simp only [emulate_instructions, hf, execute, hk]
      refine ⟨_, rfl, ?_, ?_⟩
      · simp only [store, if_neg h15, if_neg hXY, if_true, hl]
      · simp only [store, if_neg hX15, if_neg hXY, if_true, hh]

theorem alu_shift_8XY6_8XYE_witness :
    ((∃ s', emulate_instructions (alu_state 0x80 0x16) set_config 0 = .ok s' ∧
        s'.V 15 = 200 % 2 ∧ s'.V 0 = 200 / 2) ∧
      (∃ s'', emulate_instructions
          { alu_state 0x80 0x16 with V := store (alu_state 0x80 0x16).V 1 7 } set_config 0
            = .ok s'' ∧
        s''.V 15 = 200 % 2 ∧ s''.V 0 = 200 / 2)) ∧
    ((∃ s', emulate_instructions (alu_state 0x80 0x1E) set_config 0 = .ok s' ∧
        s'.V 15 = 200 / 128 ∧ s'.V 0 = (2 * 200) % 256) ∧
      (∃ s'', emulate_instructions
          { alu_state 0x80 0x1E with V := store (alu_state 0x80 0x1E).V 1 7 } set_config 0
            = .ok s'' ∧
        s''.V 15 = 200 / 128 ∧ s''.V 0 = (2 * 200) % 256)) :=
  ⟨⟨((alu_shift_8XY6_8XYE set_config 0 0 1 (by decide) (by decide)).1 (alu_state 0x80 0x16)
      (alu_state_WF 0x80 0x16 (by decide) (by decide)) (by decide) (by decide) (by decide)).1,
    ((alu_shift_8XY6_8XYE set_config 0 0 1 (by decide) (by decide)).1 (alu_state 0x80 0x16)
      (alu_state_WF 0x80 0x16 (by decide) (by decide)) (by decide) (by decide) (by decide)).2
      7 (by decide)⟩,
   ⟨((alu_shift_8XY6_8XYE set_config 0 0 1 (by decide) (by decide)).2 (alu_state 0x80 0x1E)
      (alu_state_WF 0x80 0x1E (by decide) (by decide)) (by decide) (by decide) (by decide)).1,
    ((alu_shift_8XY6_8XYE set_config 0 0 1 (by decide) (by decide)).2 (alu_state 0x80 0x1E)
      (alu_state_WF 0x80 0x1E (by decide) (by decide)) (by decide) (by decide) (by decide)).2
      7 (by decide)⟩⟩

/-! ## Draw-sprite (DXYN) on the 64x32 grid -/

theorem store_store {α : Type} (a : Nat → α) (i : Nat) (v w : α) :
    store (store a i v) i w = store a i w := by
  funext k; simp only [store]; split_ifs <;> rfl

theorem pixel_index (x y : Nat) (hx : x < 64) (hy : y < 32) :
    u32 (y * 64 + x) = y * 64 + x := by
  simp only [u32]; omega

theorem draw_cols_succ (config : config_t) (hw : config.window_width = 64)
    (sprite_data y : Nat) (hy : y < 32) (n j x : Nat) (s : chip8_t) (hx : x < 64) :
    draw_cols config sprite_data y (n + 1) j x s =
      if x + 1 ≥ 64 then .ok (col_step sprite_data y j x s)
      else draw_cols config sprite_data y n (j + 1) (x + 1) (col_step sprite_data y j x s) := by
  have hidx := pixel_index x y hx hy
  have hw32 : u32 config.window_width = 64 := by simp only [u32, hw]
  have hx1 : (x + 1) % 256 = x + 1 := by omega
  simp only [draw_cols, hw32, hidx, hx1]
  rw [if_pos (by unfold DISPLAY_SIZE; omega)]
  cases h : (sprite_bit sprite_data j && s.display (y * 64 + x)) <;>
    simp only [col_step, h, Bool.false_eq_true, if_false, if_true]

theorem draw_cols_eq (config : config_t) (hw : config.window_width = 64)
    (sprite_data y : Nat) (hy : y < 32) :
    ∀ (n j x : Nat) (s : chip8_t), x < 64 →
      ∃ V', draw_cols config sprite_data y n j x s
          = .ok { s with display := cols_display sprite_data y n j x s.display, V := V' } ∧
        (cols_collide sprite_data y n j x s.display → V' = store s.V 0xF 1) ∧
        (¬ cols_collide sprite_data y n j x s.display → V' = s.V) := by
  intro n
  induction n with
  | zero =>
    intro j x s _
    refine ⟨s.V, ?_, ?_, fun _ => rfl⟩
    · have hd : cols_display sprite_data y 0 j x s.display = s.display := by
        funext p; simp only [cols_display]; rw [if_neg (by omega)]
      rw [hd]; rfl
    · rintro ⟨c, hc, _⟩; omega
  | succ n ih =>
    intro j x s hx
    rw [draw_cols_succ config hw sprite_data y hy n j x s hx]
    -- the display after this column followed by the remaining ones
    have hdisp : ∀ m, cols_display sprite_data y m (j + 1) (x + 1)
        (col_step sprite_data y j x s).display
        = cols_display sprite_data y (m + 1) j x s.display := by
      intro m
      funext p
      simp only [cols_display, col_step, store]
      by_cases hp : p = y * 64 + x
      · subst hp
        rw [if_neg (by omega), if_pos rfl, if_pos (by omega)]
        simp
      · rw [if_neg hp]
        by_cases hc : y * 64 + (x + 1) ≤ p ∧ p < y * 64 + (x + 1) + m ∧ p < y * 64 + 64
        · rw [if_pos hc, if_pos (by omega)]
          have : j + 1 + (p - (y * 64 + (x + 1))) = j + (p - (y * 64 + x)) := by omega
          rw [this]
        · rw [if_neg hc, if_neg (by omega)]
    have hcoll : ∀ m, cols_collide sprite_data y (m + 1) j x s.display ↔
        ((sprite_bit sprite_data j && s.display (y * 64 + x)) = true ∨
          (x + 1 < 64 ∧ cols_collide sprite_data y m (j + 1) (x + 1)
            (col_step sprite_data y j x s).display)) := by
      intro m
      have hst : ∀ c, (col_step sprite_data y j x s).display (y * 64 + (x + 1) + c)
          = s.display (y * 64 + x + (c + 1)) := by
        intro c
        simp only [col_step, store]
        rw [if_neg (by omega)]
        congr 1
        omega
      constructor
      · rintro ⟨c, hc, hxc, hb, hd⟩
        cases c with
        | zero =>
          left
          simp only [Nat.add_zero] at hb hd
          simp [hb, hd]
        | succ c =>
          right
          refine ⟨by omega, c, by omega, by omega, ?_, ?_⟩
          · rw [show j + 1 + c = j + (c + 1) by omega]; exact hb
          · rw [hst]; exact hd
      · rintro (h | ⟨_, c, hc, hxc, hb, hd⟩)
        · simp only [Bool.and_eq_true] at h
          exact ⟨0, by omega, by omega, h.1, h.2⟩
        · refine ⟨c + 1, by omega, by omega, ?_, ?_⟩
          · rw [show j + (c + 1) = j + 1 + c by omega]; exact hb
          · rw [← hst]; exact hd
    by_cases hx64 : x + 1 ≥ 64
    · rw [if_pos hx64]
      refine ⟨(col_step sprite_data y j x s).V, ?_, ?_, ?_⟩
      · have h0 := hdisp 0
        have hd : cols_display sprite_data y 0 (j + 1) (x + 1)
            (col_step sprite_data y j x s).display = (col_step sprite_data y j x s).display := by
          funext p; simp only [cols_display]; rw [if_neg (by omega)]
        rw [hd] at h0
        have hn : cols_display sprite_data y (n + 1) j x s.display
            = cols_display sprite_data y (0 + 1) j x s.display := by
          funext p; simp only [cols_display]
          by_cases hc : y * 64 + x ≤ p ∧ p < y * 64 + x + (n + 1) ∧ p < y * 64 + 64
          · rw [if_pos hc, if_pos (by omega)]
          · rw [if_neg hc, if_neg (by omega)]
        rw [hn, ← h0]
        rfl
      · intro hc
        rcases (hcoll n).1 hc with h | ⟨h, _⟩
        · simp only [col_step, if_pos h]
        · omega
      · intro hc
        have h : ¬ (sprite_bit sprite_data j && s.display (y * 64 + x)) = true :=
          fun h => hc ((hcoll n).2 (Or.inl h))
        simp only [col_step, if_neg h]
    · rw [if_neg hx64]
      obtain ⟨V', hrun, hyes, hno⟩ := ih (j + 1) (x + 1) (col_step sprite_data y j x s) (by omega)
      refine ⟨V', ?_, ?_, ?_⟩
      · rw [hrun, hdisp n]
        rfl
      · intro hc
        by_cases ht : cols_collide sprite_data y n (j + 1) (x + 1)
            (col_step sprite_data y j x s).display
        · rw [hyes ht]
          simp only [col_step]
          split_ifs
          · rw [store_store]
          · rfl
        · rw [hno ht]
          rcases (hcoll n).1 hc with h | ⟨_, h⟩
          · simp only [col_step, if_pos h]
          · exact absurd h ht
      · intro hc
        have h : ¬ (sprite_bit sprite_data j && s.display (y * 64 + x)) = true :=
          fun h => hc ((hcoll n).2 (Or.inl h))
        have ht : ¬ cols_collide sprite_data y n (j + 1) (x + 1)
            (col_step sprite_data y j x s).display :=
          fun ht => hc ((hcoll n).2 (Or.inr ⟨by omega, ht⟩))
        rw [hno ht]
        simp only [col_step, if_neg h]

theorem flag_compose (V V1 V2 : Nat → Nat) (A B : Prop)
    (h1y : A → V1 = store V 0xF 1) (h1n : ¬ A → V1 = V)
    (h2y : B → V2 = store V1 0xF 1) (h2n : ¬ B → V2 = V1) :
    ((A ∨ B) → V2 = store V 0xF 1) ∧ (¬ (A ∨ B) → V2 = V) := by
  by_cases hA : A <;> by_cases hB : B
  · simp [hA, hB, h2y hB, h1y hA, store_store]
  · simp [hA, hB, h2n hB, h1y hA]
  · simp [hA, hB, h2y hB, h1n hA]
  · simp [hA, hB, h2n hB, h1n hA]

theorem draw_rows_eq (config : config_t) (hw : config.window_width = 64)
    (hh : config.window_height = 32) (x0 : Nat) (hx0 : x0 < 64) :
    ∀ (n i y : Nat) (s : chip8_t), y < 32 → s.I + i + n ≤ RAM_SIZE →
      ∃ V', draw_rows config x0 n i y s
          = .ok { s with display := rows_display s.ram s.I x0 n i y s.display, V := V' } ∧
        (rows_collide s.ram s.I x0 n i y s.display → V' = store s.V 0xF 1) ∧
        (¬ rows_collide s.ram s.I x0 n i y s.display → V' = s.V) := by
  intro n
  induction n with
  | zero =>
    intro i y s _ _
    refine ⟨s.V, ?_, ?_, fun _ => rfl⟩
    · have hd : rows_display s.ram s.I x0 0 i y s.display = s.display := by
        funext p; simp only [rows_display]; rw [if_neg (by omega)]
      rw [hd]; rfl
    · rintro ⟨r, c, hr, _⟩; omega
  | succ n ih =>
    intro i y s hy hI
    have hh32 : u32 config.window_height = 32 := by simp only [u32, hh]
    have hy1 : (y + 1) % 256 = y + 1 := by omega
    obtain ⟨V1, hcols, hc1y, hc1n⟩ :=
      draw_cols_eq config hw (s.ram (s.I + i)) y hy 8 0 x0 s hx0
    simp only [draw_rows]
    rw [if_pos (by omega), hcols]
    simp only [hh32, hy1]
    -- the display after this row followed by the remaining ones
    have hdisp : ∀ m, rows_display s.ram s.I x0 m (i + 1) (y + 1)
        (cols_display (s.ram (s.I + i)) y 8 0 x0 s.display)
        = rows_display s.ram s.I x0 (m + 1) i y s.display := by
      intro m
      funext p
      simp only [rows_display, cols_display]
      by_cases hA : y * 64 + x0 ≤ p ∧ p < y * 64 + x0 + 8 ∧ p < y * 64 + 64
      · rw [if_neg (by omega), if_pos hA, if_pos (by omega)]
        have e1 : s.I + i + (p / 64 - y) = s.I + i := by omega
        have e2 : 0 + (p - (y * 64 + x0)) = p % 64 - x0 := by omega
        rw [e1, e2]
      · rw [if_neg hA]
        by_cases hB : y + 1 ≤ p / 64 ∧ p / 64 < y + 1 + m ∧ p / 64 < 32 ∧
            x0 ≤ p % 64 ∧ p % 64 < x0 + 8
        · rw [if_pos hB, if_pos (by omega)]
          have e1 : s.I + (i + 1) + (p / 64 - (y + 1)) = s.I + i + (p / 64 - y) := by omega
          rw [e1]
        · rw [if_neg hB, if_neg (by omega)]
    have hcoll : ∀ m, rows_collide s.ram s.I x0 (m + 1) i y s.display ↔
        (cols_collide (s.ram (s.I + i)) y 8 0 x0 s.display ∨
          (y + 1 < 32 ∧ rows_collide s.ram s.I x0 m (i + 1) (y + 1)
            (cols_display (s.ram (s.I + i)) y 8 0 x0 s.display))) := by
      intro m
      have hst : ∀ r c, x0 + c < 64 →
          cols_display (s.ram (s.I + i)) y 8 0 x0 s.display ((y + 1 + r) * 64 + (x0 + c))
          = s.display ((y + (r + 1)) * 64 + (x0 + c)) := by
        intro r c hc
        simp only [cols_display]
        rw [if_neg (by omega)]
        congr 1
        omega
      constructor
      · rintro ⟨r, c, hr, hyr, hc, hxc, hb, hd⟩
        cases r with
        | zero =>
          left
          refine ⟨c, hc, hxc, ?_, ?_⟩
          · rw [Nat.zero_add]; simpa using hb
          · have e : y * 64 + x0 + c = (y + 0) * 64 + (x0 + c) := by omega
            rw [e]; exact hd
        | succ r =>
          right
          refine ⟨by omega, r, c, by omega, by omega, hc, hxc, ?_, ?_⟩
          · rw [show s.I + (i + 1) + r = s.I + i + (r + 1) by omega]; exact hb
          · rw [hst r c hxc]; exact hd
      · rintro (⟨c, hc, hxc, hb, hd⟩ | ⟨_, r, c, hr, hyr, hc, hxc, hb, hd⟩)
        · refine ⟨0, c, by omega, by omega, hc, hxc, ?_, ?_⟩
          · rw [Nat.zero_add] at hb; simpa using hb
          · have e : (y + 0) * 64 + (x0 + c) = y * 64 + x0 + c := by omega
            rw [e]; exact hd
        · refine ⟨r + 1, c, by omega, by omega, hc, hxc, ?_, ?_⟩
          · rw [show s.I + i + (r + 1) = s.I + (i + 1) + r by omega]; exact hb
          · rw [← hst r c hxc]; exact hd
    by_cases hy32 : y + 1 ≥ 32
    · rw [if_pos hy32]
      refine ⟨V1, ?_, ?_, ?_⟩
      · have h0 := hdisp 0
        have hd : rows_display s.ram s.I x0 0 (i + 1) (y + 1)
            (cols_display (s.ram (s.I + i)) y 8 0 x0 s.display)
            = cols_display (s.ram (s.I + i)) y 8 0 x0 s.display := by
          funext p; simp only [rows_display]; rw [if_neg (by omega)]
        rw [hd] at h0
        have hn : rows_display s.ram s.I x0 (n + 1) i y s.display
            = rows_display s.ram s.I x0 (0 + 1) i y s.display := by
          funext p; simp only [rows_display]
          by_cases hc : y ≤ p / 64 ∧ p / 64 < y + (n + 1) ∧ p / 64 < 32 ∧
              x0 ≤ p % 64 ∧ p % 64 < x0 + 8
          · rw [if_pos hc, if_pos (by omega)]
          · rw [if_neg hc, if_neg (by omega)]
        rw [hn, ← h0]
      · intro hc
        rcases (hcoll n).1 hc with h | ⟨h, _⟩
        · exact hc1y h
        · omega
      · intro hc
        exact hc1n (fun h => hc ((hcoll n).2 (Or.inl h)))
    · rw [if_neg hy32]
      obtain ⟨V2, hrun, hyes, hno⟩ := ih (i + 1) (y + 1)
        { s with display := cols_display (s.ram (s.I + i)) y 8 0 x0 s.display, V := V1 }
        (by omega) (by simp only; omega)
      refine ⟨V2, ?_, ?_, ?_⟩
      · rw [hrun]
        simp only [hdisp n]
      · intro hc
        have hor : cols_collide (s.ram (s.I + i)) y 8 0 x0 s.display ∨
            rows_collide s.ram s.I x0 n (i + 1) (y + 1)
              (cols_display (s.ram (s.I + i)) y 8 0 x0 s.display) := by
          rcases (hcoll n).1 hc with h | ⟨_, h⟩
          · exact Or.inl h
          · exact Or.inr h
        exact (flag_compose s.V V1 V2 _ _ hc1y hc1n hyes hno).1 hor
      · intro hc
        refine (flag_compose s.V V1 V2 _ _ hc1y hc1n hyes hno).2 ?_
        rintro (h | h)
        · exact hc ((hcoll n).2 (Or.inl h))
        · exact hc ((hcoll n).2 (Or.inr ⟨by omega, h⟩))

/-- The whole step for opcode DXYN on the 64x32 grid, in closed form. -/
theorem draw_step (s : chip8_t) (config : config_t) (rand X Y N : Nat)
    (hw : config.window_width = 64) (hh : config.window_height = 32)
    (hX : X < 16) (hY : Y < 16) (hN : N < 16)
    (hpc : s.PC + 1 < RAM_SIZE)
    (hhi : s.ram s.PC = 0xD0 + X) (hlo : s.ram (s.PC + 1) = 16 * Y + N)
    (hI : s.I + N ≤ RAM_SIZE) :
    ∃ V', emulate_instructions s config rand = .ok { s with
        inst := { opcode := 4096 * 13 + 256 * X + 16 * Y + N, NNN := 256 * X + 16 * Y + N,
                  NN := 16 * Y + N, N := N, X := X, Y := Y },
        PC := s.PC + 2,
        display := rows_display s.ram s.I (s.V X % 64) N 0 (s.V Y % 32) s.display,
        V := V',
        draw := true } ∧
      (rows_collide s.ram s.I (s.V X % 64) N 0 (s.V Y % 32) s.display → V' = store s.V 0xF 1) ∧
      (¬ rows_collide s.ram s.I (s.V X % 64) N 0 (s.V Y % 32) s.display → V' = store s.V 0xF 0) := by
  have hf := fetch_nibbles s 13 X Y N (by omega) hX hY hN hpc hhi hlo
  have hk := (decode_nibbles 13 X Y N (by omega) hX hY hN).2
  have hw32 : u32 config.window_width = 64 := by simp only [u32, hw]
  have hh32 : u32 config.window_height = 32 := by simp only [u32, hh]
  have hx : (s.V X % 64) % 256 = s.V X % 64 := by omega
  have hy : (s.V Y % 32) % 256 = s.V Y % 32 := by omega
  simp only [emulate_instructions, hf, execute, hk, draw_sprite, hw32, hh32, hx, hy]
  rw [if_neg (by omega), if_neg (by omega)]
  obtain ⟨V', hrun, hyes, hno⟩ := draw_rows_eq config hw hh (s.V X % 64) (by omega) N 0
    (s.V Y % 32)
    { s with
      inst := { opcode := 4096 * 13 + 256 * X + 16 * Y + N, NNN := 256 * X + 16 * Y + N,
                NN := 16 * Y + N, N := N, X := X, Y := Y },
      PC := s.PC + 2, V := store s.V 0xF 0 }
    (by omega) (by simp only; omega)
  refine ⟨V', ?_, ?_, ?_⟩
  · rw [hrun]
  · intro hc
    rw [hyes hc, store_store]
  · intro hc
    rw [hno hc]

theorem sprite_bit_eq_testBit (data c : Nat) (hc : c < 8) :
    sprite_bit data c = data.testBit (7 - c) := by
  have h : (0x80 : Nat) >>> c = 2 ^ (7 - c) := by
    interval_cases c <;> rfl
  unfold sprite_bit
  rw [h, Nat.and_two_pow]
  cases data.testBit (7 - c) <;> simp

theorem rows_display_inside (ram : Nat → Nat) (I x0 N y0 : Nat) (d : Nat → Bool)
    (r c : Nat) (hr : r < N) (hyr : y0 + r < 32) (hc : c < 8) (hxc : x0 + c < 64) :
    rows_display ram I x0 N 0 y0 d ((y0 + r) * 64 + (x0 + c))
      = xor (d ((y0 + r) * 64 + (x0 + c))) ((ram (I + r)).testBit (7 - c)) := by
  have e1 : ((y0 + r) * 64 + (x0 + c)) / 64 = y0 + r := by omega
  have e2 : ((y0 + r) * 64 + (x0 + c)) % 64 = x0 + c := by omega
  simp only [rows_display, e1, e2]
  rw [if_pos (by omega)]
  have e3 : I + 0 + (y0 + r - y0) = I + r := by omega
  have e4 : x0 + c - x0 = c := by omega
  rw [e3, e4, sprite_bit_eq_testBit _ _ hc]

theorem rows_display_outside (ram : Nat → Nat) (I x0 N y0 : Nat) (d : Nat → Bool) (p : Nat)
    (hp : ¬ ∃ r c, r < N ∧ y0 + r < 32 ∧ c < 8 ∧ x0 + c < 64 ∧ p = (y0 + r) * 64 + (x0 + c)) :
    rows_display ram I x0 N 0 y0 d p = d p := by
  simp only [rows_display]
  split_ifs with h
  · exact absurd ⟨p / 64 - y0, p % 64 - x0, by omega, by omega, by omega, by omega, by omega⟩ hp
  · rfl

theorem rows_collide_iff (ram : Nat → Nat) (I x0 N y0 : Nat) (d : Nat → Bool) :
    rows_collide ram I x0 N 0 y0 d ↔
      ∃ r c, r < N ∧ y0 + r < 32 ∧ c < 8 ∧ x0 + c < 64 ∧
        (ram (I + r)).testBit (7 - c) = true ∧ d ((y0 + r) * 64 + (x0 + c)) = true := by
  constructor
  · rintro ⟨r, c, hr, hyr, hc, hxc, hb, hd⟩
    refine ⟨r, c, hr, hyr, hc, hxc, ?_, hd⟩
    rw [← sprite_bit_eq_testBit _ _ hc]
    simpa using hb
  · rintro ⟨r, c, hr, hyr, hc, hxc, hb, hd⟩
    refine ⟨r, c, hr, hyr, hc, hxc, ?_, hd⟩
    rw [← sprite_bit_eq_testBit _ _ hc] at hb
    simpa using hb

/-- Claim C4 (draw-sprite display effect with clipping): on the 64x32 grid, with
opcode DXYN at `PC` and `I + N ≤ 4096`, let `x0 = V[X] mod 64` and
`y0 = V[Y] mod 32` before the step.  The step succeeds; for every row `r < N`
with `y0 + r < 32` and every column `c < 8` with `x0 + c < 64` the pixel
`display[(y0 + r) * 64 + (x0 + c)]` becomes its previous value XOR bit `7 - c`
of `ram[I + r]`; every other pixel is unchanged (no wrap-around). -/
theorem draw_sprite_display (s : chip8_t) (config : config_t) (rand X Y N : Nat)
    (hw : config.window_width = 64) (hh : config.window_height = 32)
    (hX : X < 16) (hY : Y < 16) (hN : N < 16)
    (hpc : s.PC + 1 < RAM_SIZE)
    (hhi : s.ram s.PC = 0xD0 + X) (hlo : s.ram (s.PC + 1) = 16 * Y + N)
    (hI : s.I + N ≤ 4096) :
    ∃ s', emulate_instructions s config rand = .ok s' ∧
      (∀ r c, r < N → s.V Y % 32 + r < 32 → c < 8 → s.V X % 64 + c < 64 →
        s'.display ((s.V Y % 32 + r) * 64 + (s.V X % 64 + c))
          = xor (s.display ((s.V Y % 32 + r) * 64 + (s.V X % 64 + c)))
              ((s.ram (s.I + r)).testBit (7 - c))) ∧
      (∀ p, (¬ ∃ r c, r < N ∧ s.V Y % 32 + r < 32 ∧ c < 8 ∧ s.V X % 64 + c < 64 ∧
          p = (s.V Y % 32 + r) * 64 + (s.V X % 64 + c)) →
        s'.display p = s.display p) := by
  obtain ⟨V', hrun, -, -⟩ := draw_step s config rand X Y N hw hh hX hY hN hpc hhi hlo hI
  refine ⟨_, hrun, ?_, ?_⟩
  · intro r c hr hyr hc hxc
    exact rows_display_inside s.ram s.I _ N _ s.display r c hr hyr hc hxc
  · intro p hp
    exact rows_display_outside s.ram s.I _ N _ s.display p hp

theorem draw_sprite_display_witness :
    ∃ s', emulate_instructions (draw_state 0xD0 0x12) set_config 0 = .ok s' ∧
      (∀ r c, r < 2 → 31 + r < 32 → c < 8 → 60 + c < 64 →
        s'.display ((31 + r) * 64 + (60 + c))
          = xor ((draw_state 0xD0 0x12).display ((31 + r) * 64 + (60 + c)))
              (((draw_state 0xD0 0x12).ram (0x300 + r)).testBit (7 - c))) ∧
      (∀ p, (¬ ∃ r c, r < 2 ∧ 31 + r < 32 ∧ c < 8 ∧ 60 + c < 64 ∧
          p = (31 + r) * 64 + (60 + c)) →
        s'.display p = (draw_state 0xD0 0x12).display p) :=
  draw_sprite_display (draw_state 0xD0 0x12) set_config 0 0 1 2 rfl rfl
    (by decide) (by decide) (by decide) (by decide) (by decide) (by decide) (by decide)

theorem rows_collide_iff_unset (ram : Nat → Nat) (I x0 N y0 : Nat) (d : Nat → Bool) :
    rows_collide ram I x0 N 0 y0 d ↔
      ∃ p, d p = true ∧ rows_display ram I x0 N 0 y0 d p = false := by
  constructor
  · rintro ⟨r, c, hr, hyr, hc, hxc, hb, hd⟩
    refine ⟨(y0 + r) * 64 + (x0 + c), hd, ?_⟩
    have e1 : ((y0 + r) * 64 + (x0 + c)) / 64 = y0 + r := by omega
    have e2 : ((y0 + r) * 64 + (x0 + c)) % 64 = x0 + c := by omega
    simp only [rows_display, e1, e2]
    rw [if_pos (by omega)]
    have e3 : y0 + r - y0 = r := by omega
    have e4 : x0 + c - x0 = c := by omega
    rw [e3, e4, hb, hd]
    rfl
  · rintro ⟨p, hd, hd'⟩
    simp only [rows_display] at hd'
    split_ifs at hd' with h
    · refine ⟨p / 64 - y0, p % 64 - x0, by omega, by omega, by omega, by omega, ?_, ?_⟩
      · rw [hd] at hd'
        simpa using hd'
      · have e : (y0 + (p / 64 - y0)) * 64 + (x0 + (p % 64 - x0)) = p := by omega
        rw [e]; exact hd
    · rw [hd] at hd'
      exact absurd hd' (by decide)

/-- Claim C5 (draw-sprite collision flag): on the 64x32 grid, with opcode DXYN at
`PC` and `I + N ≤ 4096`, after the step `V[15] = 1` if a set sprite bit landed,
inside the clipped area, on a pixel that was set before the draw, and
`V[15] = 0` otherwise (in particular for `N = 0`); that condition holds exactly
when some display pixel went from set to unset during the step; the
redraw-pending flag `draw` is true afterwards in every case. -/
theorem draw_sprite_collision (s : chip8_t) (config : config_t) (rand X Y N : Nat)
    (hw : config.window_width = 64) (hh : config.window_height = 32)
    (hX : X < 16) (hY : Y < 16) (hN : N < 16)
    (hpc : s.PC + 1 < RAM_SIZE)
    (hhi : s.ram s.PC = 0xD0 + X) (hlo : s.ram (s.PC + 1) = 16 * Y + N)
    (hI : s.I + N ≤ 4096) :
    ∃ s', emulate_instructions s config rand = .ok s' ∧
      ((∃ r c, r < N ∧ s.V Y % 32 + r < 32 ∧ c < 8 ∧ s.V X % 64 + c < 64 ∧
          (s.ram (s.I + r)).testBit (7 - c) = true ∧
          s.display ((s.V Y % 32 + r) * 64 + (s.V X % 64 + c)) = true) → s'.V 15 = 1) ∧
      ((¬ ∃ r c, r < N ∧ s.V Y % 32 + r < 32 ∧ c < 8 ∧ s.V X % 64 + c < 64 ∧
          (s.ram (s.I + r)).testBit (7 - c) = true ∧
          s.display ((s.V Y % 32 + r) * 64 + (s.V X % 64 + c)) = true) → s'.V 15 = 0) ∧
      ((∃ r c, r < N ∧ s.V Y % 32 + r < 32 ∧ c < 8 ∧ s.V X % 64 + c < 64 ∧
          (s.ram (s.I + r)).testBit (7 - c) = true ∧
          s.display ((s.V Y % 32 + r) * 64 + (s.V X % 64 + c)) = true) ↔
        ∃ p, s.display p = true ∧ s'.display p = false) ∧
      (N = 0 → s'.V 15 = 0) ∧
      s'.draw = true := by
  obtain ⟨V', hrun, hyes, hno⟩ := draw_step s config rand X Y N hw hh hX hY hN hpc hhi hlo hI
  have hiff := rows_collide_iff s.ram s.I (s.V X % 64) N (s.V Y % 32) s.display
  refine ⟨_, hrun, ?_, ?_, ?_, ?_, rfl⟩
  · intro hc
    show V' 15 = 1
    rw [hyes (hiff.2 hc)]
    rfl
  · intro hc
    show V' 15 = 0
    rw [hno (fun h => hc (hiff.1 h))]
    rfl
  · rw [← hiff]
    exact rows_collide_iff_unset s.ram s.I (s.V X % 64) N (s.V Y % 32) s.display
  · intro hN0
    show V' 15 = 0
    rw [hno (by rintro ⟨r, c, hr, _⟩; omega)]
    rfl

theorem draw_sprite_collision_witness :
    ∃ s', emulate_instructions (draw_state 0xD0 0x12) set_config 0 = .ok s' ∧
      ((∃ r c, r < 2 ∧ 31 + r < 32 ∧ c < 8 ∧ 60 + c < 64 ∧
          ((draw_state 0xD0 0x12).ram (0x300 + r)).testBit (7 - c) = true ∧
          (draw_state 0xD0 0x12).display ((31 + r) * 64 + (60 + c)) = true) → s'.V 15 = 1) ∧
      ((¬ ∃ r c, r < 2 ∧ 31 + r < 32 ∧ c < 8 ∧ 60 + c < 64 ∧
          ((draw_state 0xD0 0x12).ram (0x300 + r)).testBit (7 - c) = true ∧
          (draw_state 0xD0 0x12).display ((31 + r) * 64 + (60 + c)) = true) → s'.V 15 = 0) ∧
      ((∃ r c, r < 2 ∧ 31 + r < 32 ∧ c < 8 ∧ 60 + c < 64 ∧
          ((draw_state 0xD0 0x12).ram (0x300 + r)).testBit (7 - c) = true ∧
          (draw_state 0xD0 0x12).display ((31 + r) * 64 + (60 + c)) = true) ↔
        ∃ p, (draw_state 0xD0 0x12).display p = true ∧ s'.display p = false) ∧
      ((2 : Nat) = 0 → s'.V 15 = 0) ∧
      s'.draw = true :=
  draw_sprite_collision (draw_state 0xD0 0x12) set_config 0 0 1 2 rfl rfl
    (by decide) (by decide) (by decide) (by decide) (by decide) (by decide) (by decide)

theorem rows_display_twice (ram : Nat → Nat) (I x0 N i y : Nat) (d : Nat → Bool) :
    rows_display ram I x0 N i y (rows_display ram I x0 N i y d) = d := by
  funext p
  simp only [rows_display]
  split_ifs
  · cases d p <;> cases sprite_bit (ram (I + i + (p / 64 - y))) (p % 64 - x0) <;> rfl
  · rfl

/-- Claim C6 (draw-sprite is self-inverse): on the 64x32 grid, for `X ≠ 15`,
`Y ≠ 15` and `I + N ≤ 4096`, executing the same DXYN opcode twice in a row (the
opcode stored at `PC` and again at `PC + 2`) keeps `V[X]`, `V[Y]`, `I` and
memory unchanged between the two draws, leaves the display after the second
draw equal to the display before the first, and sets `V[15] = 1` in the second
draw whenever the first draw left a pixel set at a position covered by a set
sprite bit. -/
theorem draw_sprite_twice (s : chip8_t) (config : config_t) (rand rand2 X Y N : Nat)
    (hw : config.window_width = 64) (hh : config.window_height = 32)
    (hX : X < 15) (hY : Y < 15) (hN : N < 16)
    (hpc : s.PC + 3 < RAM_SIZE)
    (hhi : s.ram s.PC = 0xD0 + X) (hlo : s.ram (s.PC + 1) = 16 * Y + N)
    (hhi2 : s.ram (s.PC + 2) = 0xD0 + X) (hlo2 : s.ram (s.PC + 3) = 16 * Y + N)
    (hI : s.I + N ≤ 4096) :
    ∃ s1 s2, emulate_instructions s config rand = .ok s1 ∧
      emulate_instructions s1 config rand2 = .ok s2 ∧
      s1.V X = s.V X ∧ s1.V Y = s.V Y ∧ s1.I = s.I ∧ s1.ram = s.ram ∧
      s2.display = s.display ∧
      ((∃ r c, r < N ∧ s.V Y % 32 + r < 32 ∧ c < 8 ∧ s.V X % 64 + c < 64 ∧
          (s.ram (s.I + r)).testBit (7 - c) = true ∧
          s1.display ((s.V Y % 32 + r) * 64 + (s.V X % 64 + c)) = true) → s2.V 15 = 1) := by
  obtain ⟨V1, hrun1, hyes1, hno1⟩ := draw_step s config rand X Y N hw hh
    (by omega) (by omega) hN (by unfold RAM_SIZE at *; omega) hhi hlo hI
  have hV1 : ∀ i, i ≠ 15 → V1 i = s.V i := by
    intro i hi
    by_cases hc : rows_collide s.ram s.I (s.V X % 64) N 0 (s.V Y % 32) s.display
    · rw [hyes1 hc]; simp only [store, if_neg hi]
    · rw [hno1 hc]; simp only [store, if_neg hi]
  have hVX := hV1 X (by omega)
  have hVY := hV1 Y (by omega)
  obtain ⟨V2, hrun2, hyes2, -⟩ := draw_step
    { s with
      inst := { opcode := 4096 * 13 + 256 * X + 16 * Y + N, NNN := 256 * X + 16 * Y + N,
                NN := 16 * Y + N, N := N, X := X, Y := Y },
      PC := s.PC + 2,
      display := rows_display s.ram s.I (s.V X % 64) N 0 (s.V Y % 32) s.display,
      V := V1,
      draw := true }
    config rand2 X Y N hw hh (by omega) (by omega) hN
    (by unfold RAM_SIZE at *; simp only; omega) hhi2 hlo2 hI
  simp only [hVX, hVY] at hrun2 hyes2
  refine ⟨_, _, hrun1, hrun2, hVX, hVY, rfl, rfl, ?_, ?_⟩
  · exact rows_display_twice s.ram s.I (s.V X % 64) N 0 (s.V Y % 32) s.display
  · intro hc
    show V2 15 = 1
    rw [hyes2 ((rows_collide_iff _ _ _ _ _ _).2 hc)]
    rfl

theorem draw_sprite_twice_witness :
    ∃ s1 s2, emulate_instructions (draw_state 0xD0 0x12) set_config 0 = .ok s1 ∧
      emulate_instructions s1 set_config 0 = .ok s2 ∧
      s1.V 0 = 60 ∧ s1.V 1 = 31 ∧ s1.I = 0x300 ∧ s1.ram = (draw_state 0xD0 0x12).ram ∧
      s2.display = (draw_state 0xD0 0x12).display ∧
      ((∃ r c, r < 2 ∧ 31 + r < 32 ∧ c < 8 ∧ 60 + c < 64 ∧
          ((draw_state 0xD0 0x12).ram (0x300 + r)).testBit (7 - c) = true ∧
          s1.display ((31 + r) * 64 + (60 + c)) = true) → s2.V 15 = 1) :=
  draw_sprite_twice (draw_state 0xD0 0x12) set_config 0 0 0 1 2 rfl rfl
    (by decide) (by decide) (by decide) (by decide) (by decide) (by decide) (by decide)
    (by decide) (by decide)

theorem draw_rows_display_in_bounds (config : config_t) (hw : config.window_width = 64)
    (hh : config.window_height = 32) (x0 : Nat) (hx0 : x0 < 64) :
    ∀ (n i y : Nat) (s : chip8_t), y < 32 →
      draw_rows config x0 n i y s ≠ .error .display_oob := by
  intro n
  induction n with
  | zero =>
    intro i y s _ h
    simp only [draw_rows] at h
    cases h
  | succ n ih =>
    intro i y s hy
    have hh32 : u32 config.window_height = 32 := by simp only [u32, hh]
    have hy1 : (y + 1) % 256 = y + 1 := by omega
    simp only [draw_rows]
    by_cases hI : s.I + i < RAM_SIZE
    · obtain ⟨V1, hcols, -, -⟩ :=
        draw_cols_eq config hw (s.ram (s.I + i)) y hy 8 0 x0 s hx0
      rw [if_pos hI, hcols]
      simp only [hh32, hy1]
      by_cases hy32 : y + 1 ≥ 32
      · rw [if_pos hy32]
        intro h
        cases h
      · rw [if_neg hy32]
        exact ih (i + 1) (y + 1) _ (by omega)
    · rw [if_neg hI]
      intro h
      cases h

/-- Claim C7 (draw-sprite stays inside the display buffer): on the 64x32 grid,
for every state (any register values, any `I`, any sprite content) and every
opcode DXYN with `N` in `0..15`, the step never accesses a display index
outside `0..2047`: it does not end in the `display_oob` fault, and it succeeds
whenever the sprite rows `ram[I .. I + N - 1]` are inside memory. -/
theorem draw_sprite_in_bounds (s : chip8_t) (config : config_t) (rand X Y N : Nat)
    (hw : config.window_width = 64) (hh : config.window_height = 32)
    (hX : X < 16) (hY : Y < 16) (hN : N < 16)
    (hpc : s.PC + 1 < RAM_SIZE)
    (hhi : s.ram s.PC = 0xD0 + X) (hlo : s.ram (s.PC + 1) = 16 * Y + N) :
    emulate_instructions s config rand ≠ .error .display_oob ∧
    (s.I + N ≤ 4096 → ∃ s', emulate_instructions s config rand = .ok s') := by
  constructor
  · have hf := fetch_nibbles s 13 X Y N (by omega) hX hY hN hpc hhi hlo
    have hk := (decode_nibbles 13 X Y N (by omega) hX hY hN).2
    have hw32 : u32 config.window_width = 64 := by simp only [u32, hw]
    have hh32 : u32 config.window_height = 32 := by simp only [u32, hh]
    have hx : (s.V X % 64) % 256 = s.V X % 64 := by omega
    have hy : (s.V Y % 32) % 256 = s.V Y % 32 := by omega
    simp only [emulate_instructions, hf, execute, hk, draw_sprite, hw32, hh32, hx, hy]
    rw [if_neg (by omega), if_neg (by omega)]
    have hrows := draw_rows_display_in_bounds config hw hh (s.V X % 64) (by omega) N 0
      (s.V Y % 32)
      { s with
        inst := { opcode := 4096 * 13 + 256 * X + 16 * Y + N, NNN := 256 * X + 16 * Y + N,
                  NN := 16 * Y + N, N := N, X := X, Y := Y },
        PC := s.PC + 2, V := store s.V 0xF 0 }
      (by omega)
    revert hrows
    generalize draw_rows config (s.V X % 64) N 0 (s.V Y % 32) _ = res
    intro hrows
    cases res with
    | error e =>
      intro h
      apply hrows
      simp only at h
      rw [Except.error.injEq] at h
      rw [h]
    | ok s1 =>
      intro h
      cases h
  · intro hI
    obtain ⟨V', hrun, -, -⟩ := draw_step s config rand X Y N hw hh hX hY hN hpc hhi hlo hI
    exact ⟨_, hrun⟩

theorem draw_sprite_in_bounds_witness :
    emulate_instructions (draw_state 0xD0 0x1F) set_config 0 ≠ .error .display_oob ∧
    ((draw_state 0xD0 0x1F).I + 15 ≤ 4096 →
      ∃ s', emulate_instructions (draw_state 0xD0 0x1F) set_config 0 = .ok s') :=
  draw_sprite_in_bounds (draw_state 0xD0 0x1F) set_config 0 0 1 15 rfl rfl
    (by decide) (by decide) (by decide) (by decide) (by decide) (by decide)

/-! ## Get-key (FX0A) -/

theorem scan_keypad_none (keypad : Nat → Bool) :
    ∀ (n i : Nat), (∀ k, k < n → keypad (i + k) = false) → scan_keypad keypad n i = none := by
  intro n
  induction n with
  | zero => intro i _; rfl
  | succ n ih =>
    intro i h
    have h0 : keypad i = false := by simpa using h 0 (by omega)
    simp only [scan_keypad, h0, Bool.false_eq_true, if_false]
    apply ih
    intro k hk
    rw [show i + 1 + k = i + (k + 1) by omega]
    exact h (k + 1) (by omega)

theorem scan_keypad_first (keypad : Nat → Bool) :
    ∀ (n i k : Nat), k < n → keypad (i + k) = true → (∀ m, m < k → keypad (i + m) = false) →
      scan_keypad keypad n i = some (i + k) := by
  intro n
  induction n with
  | zero => intro i k hk; omega
  | succ n ih =>
    intro i k hk hset hlow
    cases k with
    | zero =>
      have h0 : keypad i = true := by simpa using hset
      simp only [scan_keypad, h0, if_true, Nat.add_zero]
    | succ k =>
      have h0 : keypad i = false := by simpa using hlow 0 (by omega)
      simp only [scan_keypad, h0, Bool.false_eq_true, if_false]
      rw [show i + (k + 1) = i + 1 + k by omega]
      apply ih (i + 1) k (by omega)
      · rw [show i + 1 + k = i + (k + 1) by omega]; exact hset
      · intro m hm
        rw [show i + 1 + m = i + (m + 1) by omega]
        exact hlow (m + 1) (by omega)

/-- Claim C8 (get-key, opcode FX0A): if no keypad entry is set, the step ends
with `PC` equal to its value before the step and registers, `I`, memory,
display, stack, stack pointer and both timers unchanged; if some entry is set
and `k` is the lowest set index in `0..15`, the step ends with `V[X] = k`, `PC`
two above its value before the step and every other register unchanged. -/
theorem get_key_FX0A (s : chip8_t) (config : config_t) (rand X : Nat)
    (hX : X < 16) (hpc : s.PC + 1 < RAM_SIZE)
    (hhi : s.ram s.PC = 0xF0 + X) (hlo : s.ram (s.PC + 1) = 0x0A) :
    ((∀ k, k < 16 → s.keypad k = false) →
      ∃ s', emulate_instructions s config rand = .ok s' ∧
        s'.PC = s.PC ∧ s'.V = s.V ∧ s'.I = s.I ∧ s'.ram = s.ram ∧ s'.display = s.display ∧
        s'.stack = s.stack ∧ s'.stack_ptr = s.stack_ptr ∧
        s'.delay_timer = s.delay_timer ∧ s'.sound_timer = s.sound_timer) ∧
    (∀ k, k < 16 → s.keypad k = true → (∀ m, m < k → s.keypad m = false) →
      ∃ s', emulate_instructions s config rand = .ok s' ∧
        s'.V X = k ∧ s'.PC = s.PC + 2 ∧ s'.I = s.I ∧ ∀ i, i ≠ X → s'.V i = s.V i) := by
  have hf := fetch_nibbles s 15 X 0 10 (by omega) hX (by omega) (by omega) hpc hhi hlo
  have hk := (decode_nibbles 15 X 0 10 (by omega) hX (by omega) (by omega)).2
  have hnn : 16 * 0 + 10 = 0x0A := rfl
  constructor
  · intro hnone
    have hscan : scan_keypad s.keypad KEYPAD_SIZE 0 = none :=
      scan_keypad_none s.keypad 16 0 (fun k hk16 => by simpa using hnone k hk16)
    have hback : u16 (((s.PC + 2 : Nat) : Int) - 2) = s.PC := by
      unfold u16; unfold RAM_SIZE at hpc; omega
    simp only [emulate_instructions, hf, execute, hk, hnn, hscan, hback]
    exact ⟨_, rfl, rfl, rfl, rfl, rfl, rfl, rfl, rfl, rfl, rfl⟩
  · intro k hk16 hset hlow
    have hscan : scan_keypad s.keypad KEYPAD_SIZE 0 = some k := by
      have h := scan_keypad_first s.keypad 16 0 k hk16 (by simpa using hset)
        (fun m hm => by simpa using hlow m hm)
      simpa using h
    simp only [emulate_instructions, hf, execute, hk, hnn, hscan]
    refine ⟨_, rfl, ?_, rfl, rfl, ?_⟩
    · simp only [store, if_true]
    · intro i hi
      simp only [store, if_neg hi]

theorem get_key_FX0A_witness :
    (∃ s', emulate_instructions (misc_state 0xF3 0x0A (fun _ => false)) set_config 0 = .ok s' ∧
        s'.PC = 0x200 ∧ s'.V = (misc_state 0xF3 0x0A (fun _ => false)).V ∧ s'.I = 0x300 ∧
        s'.ram = (misc_state 0xF3 0x0A (fun _ => false)).ram ∧
        s'.display = (misc_state 0xF3 0x0A (fun _ => false)).display ∧
        s'.stack = (misc_state 0xF3 0x0A (fun _ => false)).stack ∧ s'.stack_ptr = 0 ∧
        s'.delay_timer = 0 ∧ s'.sound_timer = 0) ∧
    (∃ s', emulate_instructions (misc_state 0xF3 0x0A (fun i => decide (i = 5 ∨ i = 9)))
          set_config 0 = .ok s' ∧
        s'.V 3 = 5 ∧ s'.PC = 0x200 + 2 ∧ s'.I = 0x300 ∧
        ∀ i, i ≠ 3 → s'.V i = (misc_state 0xF3 0x0A (fun i => decide (i = 5 ∨ i = 9))).V i) :=
  ⟨(get_key_FX0A (misc_state 0xF3 0x0A (fun _ => false)) set_config 0 3
      (by decide) (by decide) (by decide) (by decide)).1 (fun _ _ => rfl),
   (get_key_FX0A (misc_state 0xF3 0x0A (fun i => decide (i = 5 ∨ i = 9))) set_config 0 3
      (by decide) (by decide) (by decide) (by decide)).2 5 (by decide) (by decide)
      (by decide)⟩

/-! ## Store-BCD (FX33) -/

/-- Claim C9 (store-BCD, opcode FX33): for a state with `I + 2 ≤ 4095` and
`v = V[X]`, the step succeeds and leaves `ram[I] = v / 100`,
`ram[I+1] = (v / 10) mod 10`, `ram[I+2] = v mod 10`; each of the three bytes is
a decimal digit and `100 * ram[I] + 10 * ram[I+1] + ram[I+2] = v`; every other
memory byte, every register and `I` are unchanged. -/
theorem store_bcd_FX33 (s : chip8_t) (config : config_t) (rand X : Nat)
    (hwf : s.WF) (hX : X < 16) (hpc : s.PC + 1 < RAM_SIZE)
    (hhi : s.ram s.PC = 0xF0 + X) (hlo : s.ram (s.PC + 1) = 0x33)
    (hI : s.I + 2 ≤ 4095) :
    ∃ s', emulate_instructions s config rand = .ok s' ∧
      s'.ram s.I = s.V X / 100 ∧
      s'.ram (s.I + 1) = s.V X / 10 % 10 ∧
      s'.ram (s.I + 2) = s.V X % 10 ∧
      s'.ram s.I ≤ 9 ∧ s'.ram (s.I + 1) ≤ 9 ∧ s'.ram (s.I + 2) ≤ 9 ∧
      100 * s'.ram s.I + 10 * s'.ram (s.I + 1) + s'.ram (s.I + 2) = s.V X ∧
      (∀ a, a ≠ s.I → a ≠ s.I + 1 → a ≠ s.I + 2 → s'.ram a = s.ram a) ∧
      s'.V = s.V ∧ s'.I = s.I := by
  have hf := fetch_nibbles s 15 X 3 3 (by omega) hX (by omega) (by omega) hpc hhi hlo
  have hk := (decode_nibbles 15 X 3 3 (by omega) hX (by omega) (by omega)).2
  have hnn : 16 * 3 + 3 = 0x33 := rfl
  have hv := hwf.V_byte X hX
  simp only [emulate_instructions, hf, execute, hk, hnn, bcd_loop]
  rw [if_pos (by unfold RAM_SIZE; omega), if_pos (by unfold RAM_SIZE; omega),
    if_pos (by unfold RAM_SIZE; omega)]
  have h0 : (store (store (store s.ram (s.I + 2) (s.V X % 10)) (s.I + 1) (s.V X / 10 % 10))
      (s.I + 0) (s.V X / 10 / 10 % 10)) s.I = s.V X / 100 := by
    simp only [store, Nat.add_zero, if_true]; omega
  have h1 : (store (store (store s.ram (s.I + 2) (s.V X % 10)) (s.I + 1) (s.V X / 10 % 10))
      (s.I + 0) (s.V X / 10 / 10 % 10)) (s.I + 1) = s.V X / 10 % 10 := by
    simp [store]
  have h2 : (store (store (store s.ram (s.I + 2) (s.V X % 10)) (s.I + 1) (s.V X / 10 % 10))
      (s.I + 0) (s.V X / 10 / 10 % 10)) (s.I + 2) = s.V X % 10 := by
    simp [store]
  refine ⟨_, rfl, h0, h1, h2, ?_, ?_, ?_, ?_, ?_, rfl, rfl⟩
  · show (store _ _ _) s.I ≤ 9
    rw [h0]; omega
  · show (store _ _ _) (s.I + 1) ≤ 9
    rw [h1]; omega
  · show (store _ _ _) (s.I + 2) ≤ 9
    rw [h2]; omega
  · show 100 * (store _ _ _) s.I + 10 * (store _ _ _) (s.I + 1) + (store _ _ _) (s.I + 2) = _
    rw [h0, h1, h2]; omega
  · intro a ha0 ha1 ha2
    show (store _ _ _) a = _
    simp [store, ha0, ha1, ha2]

theorem misc_state_WF (hi lo : Nat) (keypad : Nat → Bool) (hhi : hi < 256) (hlo : lo < 256) :
    (misc_state hi lo keypad).WF := by
  constructor <;> intros <;> simp only [misc_state] <;> (try split_ifs) <;> omega

theorem store_bcd_FX33_witness :
    ∃ s', emulate_instructions (misc_state 0xF0 0x33 (fun _ => false)) set_config 0 = .ok s' ∧
      s'.ram 0x300 = 2 ∧ s'.ram (0x300 + 1) = 5 ∧ s'.ram (0x300 + 2) = 5 ∧
      s'.ram 0x300 ≤ 9 ∧ s'.ram (0x300 + 1) ≤ 9 ∧ s'.ram (0x300 + 2) ≤ 9 ∧
      100 * s'.ram 0x300 + 10 * s'.ram (0x300 + 1) + s'.ram (0x300 + 2) = 255 ∧
      (∀ a, a ≠ 0x300 → a ≠ 0x300 + 1 → a ≠ 0x300 + 2 →
        s'.ram a = (misc_state 0xF0 0x33 (fun _ => false)).ram a) ∧
      s'.V = (misc_state 0xF0 0x33 (fun _ => false)).V ∧ s'.I = 0x300 :=
  store_bcd_FX33 (misc_state 0xF0 0x33 (fun _ => false)) set_config 0 0
    (misc_state_WF 0xF0 0x33 _ (by decide) (by decide))
    (by decide) (by decide) (by decide) (by decide) (by decide)

/-! ## Register dump (FX55) and register load (FX65) -/

theorem reg_dump_eq : ∀ (n i : Nat) (s : chip8_t), s.I + i + n ≤ RAM_SIZE →
    reg_dump n i s = .ok { s with ram := dumped_ram s.ram s.V s.I i n } := by
  intro n
  induction n with
  | zero =>
    intro i s _
    have h : dumped_ram s.ram s.V s.I i 0 = s.ram := by
      funext a; simp only [dumped_ram]; rw [if_neg (by omega)]
    rw [h]; rfl
  | succ n ih =>
    intro i s hI
    simp only [reg_dump]
    rw [if_pos (by omega), ih (i + 1) _ (by simp only; omega)]
    have h : dumped_ram (store s.ram (s.I + i) (s.V i)) s.V s.I (i + 1) n
        = dumped_ram s.ram s.V s.I i (n + 1) := by
      funext a
      simp only [dumped_ram, store]
      by_cases ha : a = s.I + i
      · subst ha
        rw [if_neg (by omega), if_pos rfl, if_pos (by omega)]
        congr 1
        omega
      · rw [if_neg ha]
        by_cases hb : s.I + (i + 1) ≤ a ∧ a < s.I + (i + 1) + n
        · rw [if_pos hb, if_pos (by omega)]
        · rw [if_neg hb, if_neg (by omega)]
    simp only [h]

theorem reg_load_eq : ∀ (n i : Nat) (s : chip8_t), s.I + i + n ≤ RAM_SIZE →
    reg_load n i s = .ok { s with V := loaded_V s.ram s.V s.I i n } := by
  intro n
  induction n with
  | zero =>
    intro i s _
    have h : loaded_V s.ram s.V s.I i 0 = s.V := by
      funext a; simp only [loaded_V]; rw [if_neg (by omega)]
    rw [h]; rfl
  | succ n ih =>
    intro i s hI
    simp only [reg_load]
    rw [if_pos (by omega), ih (i + 1) _ (by simp only; omega)]
    have h : loaded_V s.ram (store s.V i (s.ram (s.I + i))) s.I (i + 1) n
        = loaded_V s.ram s.V s.I i (n + 1) := by
      funext k
      simp only [loaded_V, store]
      by_cases hk : k = i
      · subst hk
        rw [if_neg (by omega), if_pos rfl, if_pos (by omega)]
      · rw [if_neg hk]
        by_cases hb : i + 1 ≤ k ∧ k < i + 1 + n
        · rw [if_pos hb, if_pos (by omega)]
        · rw [if_neg hb, if_neg (by omega)]
    simp only [h]

/-- The whole step for opcode FX55, in closed form. -/
theorem reg_dump_step (s : chip8_t) (config : config_t) (rand X : Nat)
    (hX : X < 16) (hpc : s.PC + 1 < RAM_SIZE)
    (hhi : s.ram s.PC = 0xF0 + X) (hlo : s.ram (s.PC + 1) = 0x55)
    (hI : s.I + X ≤ 4095) :
    emulate_instructions s config rand = .ok { s with
      inst := { opcode := 4096 * 15 + 256 * X + 16 * 5 + 5, NNN := 256 * X + 16 * 5 + 5,
                NN := 16 * 5 + 5, N := 5, X := X, Y := 5 },
      PC := s.PC + 2,
      ram := dumped_ram s.ram s.V s.I 0 (X + 1) } := by
  have hf := fetch_nibbles s 15 X 5 5 (by omega) hX (by omega) (by omega) hpc hhi hlo
  have hk := (decode_nibbles 15 X 5 5 (by omega) hX (by omega) (by omega)).2
  have hnn : 16 * 5 + 5 = 0x55 := rfl
  simp only [emulate_instructions, hf, execute, hk, hnn]
  rw [reg_dump_eq (X + 1) 0 _ (by unfold RAM_SIZE; simp only; omega)]

/-- The whole step for opcode FX65, in closed form. -/
theorem reg_load_step (s : chip8_t) (config : config_t) (rand X : Nat)
    (hX : X < 16) (hpc : s.PC + 1 < RAM_SIZE)
    (hhi : s.ram s.PC = 0xF0 + X) (hlo : s.ram (s.PC + 1) = 0x65)
    (hI : s.I + X ≤ 4095) :
    emulate_instructions s config rand = .ok { s with
      inst := { opcode := 4096 * 15 + 256 * X + 16 * 6 + 5, NNN := 256 * X + 16 * 6 + 5,
                NN := 16 * 6 + 5, N := 5, X := X, Y := 6 },
      PC := s.PC + 2,
      V := loaded_V s.ram s.V s.I 0 (X + 1) } := by
  have hf := fetch_nibbles s 15 X 6 5 (by omega) hX (by omega) (by omega) hpc hhi hlo
  have hk := (decode_nibbles 15 X 6 5 (by omega) hX (by omega) (by omega)).2
  have hnn : 16 * 6 + 5 = 0x65 := rfl
  simp only [emulate_instructions, hf, execute, hk, hnn]
  rw [reg_load_eq (X + 1) 0 _ (by unfold RAM_SIZE; simp only; omega)]

/-- Claim C10 (register dump/load round trip): for `X` in `0..15` and
`I + X ≤ 4095`, the dump FX55 succeeds and keeps `I`; and from every state `t`
that has the memory left by the dump and the same `I` (its registers and all
its other fields are arbitrary), executing the load FX65 with the same `X`
succeeds and leaves `V[0], ..., V[X]` equal to their values before the dump. -/
theorem reg_dump_load_round_trip (s : chip8_t) (config : config_t) (rand rand2 X : Nat)
    (hX : X < 16) (hpc : s.PC + 1 < RAM_SIZE)
    (hhi : s.ram s.PC = 0xF0 + X) (hlo : s.ram (s.PC + 1) = 0x55)
    (hI : s.I + X ≤ 4095) :
    ∃ s1, emulate_instructions s config rand = .ok s1 ∧ s1.I = s.I ∧
      ∀ t : chip8_t, t.ram = s1.ram → t.I = s.I → t.PC + 1 < RAM_SIZE →
        t.ram t.PC = 0xF0 + X → t.ram (t.PC + 1) = 0x65 →
        ∃ s2, emulate_instructions t config rand2 = .ok s2 ∧
          ∀ i, i ≤ X → s2.V i = s.V i := by
  refine ⟨_, reg_dump_step s config rand X hX hpc hhi hlo hI, rfl, ?_⟩
  intro t hram htI htpc hthi htlo
  refine ⟨_, reg_load_step t config rand2 X hX htpc hthi htlo (by omega), ?_⟩
  intro i hi
  show loaded_V t.ram t.V t.I 0 (X + 1) i = s.V i
  simp only [loaded_V]
  rw [if_pos (by omega), hram, htI]
  show dumped_ram s.ram s.V s.I 0 (X + 1) (s.I + i) = s.V i
  simp only [dumped_ram]
  rw [if_pos (by omega)]
  congr 1
  omega

theorem reg_dump_load_round_trip_witness :
    ∃ s1, emulate_instructions round_trip_state set_config 0 = .ok s1 ∧ s1.I = 0x300 ∧
      ∃ s2, emulate_instructions { s1 with V := fun _ => 0 } set_config 0 = .ok s2 ∧
        ∀ i, i ≤ 15 → s2.V i = 255 - i := by
  obtain ⟨s1, h1, hI, h⟩ := reg_dump_load_round_trip round_trip_state set_config 0 0 15
    (by decide) (by decide) (by decide) (by decide) (by decide)
  have e := reg_dump_step round_trip_state set_config 0 15
    (by decide) (by decide) (by decide) (by decide) (by decide)
  have hs1 := Except.ok.inj (h1.symm.trans e)
  refine ⟨s1, h1, hI, h { s1 with V := fun _ => 0 } rfl hI ?_ ?_ ?_⟩
  · subst hs1; decide
  · subst hs1; decide
  · subst hs1; decide

/-! ## Load (`init_chip8`) -/

theorem fread_whole (file : List Nat) (h0 : 0 < file.length) : fread file.length 1 file = 1 := by
  unfold fread
  rw [if_neg (by omega), Nat.div_self h0]
  rfl

/-- A load of a non-empty image that fits, in closed form. -/
theorem init_chip8_load (chip8 : chip8_t) (rom_name : String) (file : List Nat)
    (h0 : 0 < file.length) (h1 : file.length ≤ 3584) :
    init_chip8 chip8 rom_name (some file) = .ok
      { state := .RUNNING
        ram := copy_bytes (copy_bytes (fun _ => 0) 0 font) 0x200 file
        display := fun _ => false
        stack := fun _ => 0
        stack_ptr := 0
        V := fun _ => 0
        I := 0
        PC := 0x200
        delay_timer := 0
        sound_timer := 0
        keypad := fun _ => false
        rom_name := rom_name
        inst := { opcode := 0, NNN := 0, NN := 0, N := 0, X := 0, Y := 0 }
        draw := false } := by
  simp only [init_chip8, RAM_SIZE]
  rw [if_neg (by omega), fread_whole file h0, if_neg (by simp), List.take_length]

theorem init_chip8_empty (chip8 : chip8_t) (rom_name : String) (image : List Nat)
    (h : image.length = 0) :
    init_chip8 chip8 rom_name (some image) = .error .rom_not_read := by
  simp only [init_chip8, RAM_SIZE, fread, h]
  rw [if_neg (by omega), if_pos (by simp)]

theorem init_chip8_too_big (chip8 : chip8_t) (rom_name : String) (image : List Nat)
    (h : 3585 ≤ image.length) :
    init_chip8 chip8 rom_name (some image) = .error .rom_too_big := by
  simp only [init_chip8, RAM_SIZE]
  rw [if_pos (by omega)]

theorem init_chip8_success_iff (chip8 : chip8_t) (rom_name : String) (rom : Option (List Nat)) :
    (∃ s', init_chip8 chip8 rom_name rom = .ok s') ↔
      ∃ image, rom = some image ∧ 0 < image.length ∧ image.length ≤ 3584 := by
  constructor
  · rintro ⟨s', h⟩
    cases rom with
    | none => simp [init_chip8] at h
    | some image =>
      refine ⟨image, rfl, ?_, ?_⟩
      · rcases Nat.eq_zero_or_pos image.length with h0 | h0
        · rw [init_chip8_empty chip8 rom_name image h0] at h
          cases h
        · exact h0
      · by_contra hc
        rw [init_chip8_too_big chip8 rom_name image (by omega)] at h
        cases h
  · rintro ⟨image, rfl, h0, h1⟩
    exact ⟨_, init_chip8_load chip8 rom_name image h0 h1⟩

/-- Claim C11 (load capacity check), evaluated on the code: the load returns
the too-big failure for every image of 3585 bytes or more and succeeds for
every readable image of 1 to 3584 bytes, but for the readable image of length
0 it fails with the could-not-read failure, because `fread` of an item of size
0 returns 0. -/
theorem init_chip8_capacity (chip8 : chip8_t) (rom_name : String) (image : List Nat) :
    (image.length = 0 → init_chip8 chip8 rom_name (some image) = .error .rom_not_read) ∧
    (0 < image.length → image.length ≤ 3584 →
      ∃ s', init_chip8 chip8 rom_name (some image) = .ok s') ∧
    (3585 ≤ image.length → init_chip8 chip8 rom_name (some image) = .error .rom_too_big) :=
  ⟨init_chip8_empty chip8 rom_name image,
   fun h0 h1 => ⟨_, init_chip8_load chip8 rom_name image h0 h1⟩,
   init_chip8_too_big chip8 rom_name image⟩

theorem init_chip8_capacity_witness :
    init_chip8 (alu_state 0 0) "rom" (some []) = .error .rom_not_read ∧
    (∃ s', init_chip8 (alu_state 0 0) "rom" (some (List.replicate 3584 0)) = .ok s') ∧
    init_chip8 (alu_state 0 0) "rom" (some (List.replicate 3585 0)) = .error .rom_too_big :=
  ⟨(init_chip8_capacity (alu_state 0 0) "rom" []).1 rfl,
   (init_chip8_capacity (alu_state 0 0) "rom" (List.replicate 3584 0)).2.1
      (by rw [List.length_replicate]; omega) (by rw [List.length_replicate]),
   (init_chip8_capacity (alu_state 0 0) "rom" (List.replicate 3585 0)).2.2
      (by rw [List.length_replicate])⟩

/-- Claim C12 (load postcondition): after a successful `init_chip8`, whatever
the machine state was before, the file was readable with some image of length
`n`, and `ram[0..79]` is the glyph table, `ram[0x200 + k] = image[k]` for
`k < n`, every other ram byte is 0, `PC = 0x200`, `I = 0`, all V registers are
0, every display pixel and keypad entry is false, the stack pointer is at the
stack base, both timers are 0, the redraw flag is false and the run state is
RUNNING. -/
theorem init_chip8_post (chip8 : chip8_t) (rom_name : String) (rom : Option (List Nat))
    (s' : chip8_t) (hok : init_chip8 chip8 rom_name rom = .ok s') :
    ∃ image, rom = some image ∧
      (∀ i, i < 80 → s'.ram i = font.getD i 0) ∧
      (∀ k (h : k < image.length), s'.ram (0x200 + k) = image[k]) ∧
      (∀ i, 80 ≤ i → (i < 0x200 ∨ 0x200 + image.length ≤ i) → s'.ram i = 0) ∧
      s'.PC = 0x200 ∧ s'.I = 0 ∧ (∀ i, s'.V i = 0) ∧
      (∀ p, s'.display p = false) ∧ (∀ k, s'.keypad k = false) ∧
      s'.stack_ptr = 0 ∧ s'.delay_timer = 0 ∧ s'.sound_timer = 0 ∧
      s'.draw = false ∧ s'.state = .RUNNING := by
  obtain ⟨image, hrom, h0, h1⟩ := (init_chip8_success_iff chip8 rom_name rom).1 ⟨s', hok⟩
  subst hrom
  rw [init_chip8_load chip8 rom_name image h0 h1] at hok
  have hs := (Except.ok.inj hok).symm
  subst hs
  have hlen : font.length = 80 := rfl
  refine ⟨image, rfl, ?_, ?_, ?_,
    rfl, rfl, fun _ => rfl, fun _ => rfl, fun _ => rfl, rfl, rfl, rfl, rfl, rfl⟩
  · intro i hi
    simp only [copy_bytes]
    rw [if_neg (by omega), if_pos (by omega)]
    rfl
  · intro k hk
    simp only [copy_bytes]
    rw [if_pos (by omega)]
    have e : 0x200 + k - 0x200 = k := by omega
    rw [e, List.getD_eq_getElem _ _ hk]
  · intro i hi hout
    simp only [copy_bytes]
    rw [if_neg (by omega), if_neg (by omega)]

theorem init_chip8_post_witness :
    ∃ s', init_chip8 (alu_state 0x80 0x14) "rom" (some [0x60, 0x05, 0x61]) = .ok s' ∧
      ∃ image, some [0x60, 0x05, 0x61] = some image ∧
        (∀ i, i < 80 → s'.ram i = font.getD i 0) ∧
        (∀ k (h : k < image.length), s'.ram (0x200 + k) = image[k]) ∧
        (∀ i, 80 ≤ i → (i < 0x200 ∨ 0x200 + image.length ≤ i) → s'.ram i = 0) ∧
        s'.PC = 0x200 ∧ s'.I = 0 ∧ (∀ i, s'.V i = 0) ∧
        (∀ p, s'.display p = false) ∧ (∀ k, s'.keypad k = false) ∧
        s'.stack_ptr = 0 ∧ s'.delay_timer = 0 ∧ s'.sound_timer = 0 ∧
        s'.draw = false ∧ s'.state = .RUNNING :=
  ⟨_, init_chip8_load (alu_state 0x80 0x14) "rom" [0x60, 0x05, 0x61] (by decide) (by decide),
   init_chip8_post (alu_state 0x80 0x14) "rom" (some [0x60, 0x05, 0x61]) _
     (init_chip8_load (alu_state 0x80 0x14) "rom" [0x60, 0x05, 0x61] (by decide) (by decide))⟩

/-! ## Timers (`update_timers`) -/

theorem timer_state_WF (d snd : Nat) (hd : d < 256) (hs : snd < 256) : (timer_state d snd).WF := by
  constructor <;> intros <;> simp only [timer_state, alu_state] <;> (try split_ifs) <;> omega

/-- The tick in closed form. -/
theorem update_timers_eq (s : chip8_t) :
    update_timers s =
      ({ s with
          delay_timer :=
            if s.delay_timer > 0 then u8 ((s.delay_timer : Int) - 1) else s.delay_timer,
          sound_timer :=
            if s.sound_timer > 0 then u8 ((s.sound_timer : Int) - 1) else s.sound_timer },
        decide (s.sound_timer > 0)) := by
  unfold update_timers
  by_cases h1 : s.delay_timer > 0 <;> by_cases h2 : s.sound_timer > 0 <;> simp [h1, h2]

/-- Claim C13 (timer tick): `update_timers` changes `delay_timer` from `d` to
`d - 1` if `d > 0` and leaves it 0 if `d = 0`, and independently does the same
to `sound_timer`; a zero timer stays 0 (it does not wrap to 255); no other
field of the machine state changes. -/
theorem update_timers_tick (s : chip8_t) (hwf : s.WF) :
    (s.delay_timer > 0 → (update_timers s).1.delay_timer = s.delay_timer - 1) ∧
    (s.delay_timer = 0 → (update_timers s).1.delay_timer = 0) ∧
    (s.sound_timer > 0 → (update_timers s).1.sound_timer = s.sound_timer - 1) ∧
    (s.sound_timer = 0 → (update_timers s).1.sound_timer = 0) ∧
    (update_timers s).1.state = s.state ∧ (update_timers s).1.ram = s.ram ∧
    (update_timers s).1.display = s.display ∧ (update_timers s).1.stack = s.stack ∧
    (update_timers s).1.stack_ptr = s.stack_ptr ∧ (update_timers s).1.V = s.V ∧
    (update_timers s).1.I = s.I ∧ (update_timers s).1.PC = s.PC ∧
    (update_timers s).1.keypad = s.keypad ∧ (update_timers s).1.rom_name = s.rom_name ∧
    (update_timers s).1.inst = s.inst ∧ (update_timers s).1.draw = s.draw := by
  have hd := hwf.delay_byte
  have hs := hwf.sound_byte
  rw [update_timers_eq]
  refine ⟨?_, ?_, ?_, ?_, rfl, rfl, rfl, rfl, rfl, rfl, rfl, rfl, rfl, rfl, rfl, rfl⟩
  · intro h
    show (if s.delay_timer > 0 then u8 ((s.delay_timer : Int) - 1) else s.delay_timer) = _
    rw [if_pos h]; unfold u8; omega
  · intro h
    show (if s.delay_timer > 0 then u8 ((s.delay_timer : Int) - 1) else s.delay_timer) = _
    rw [if_neg (by omega)]; exact h
  · intro h
    show (if s.sound_timer > 0 then u8 ((s.sound_timer : Int) - 1) else s.sound_timer) = _
    rw [if_pos h]; unfold u8; omega
  · intro h
    show (if s.sound_timer > 0 then u8 ((s.sound_timer : Int) - 1) else s.sound_timer) = _
    rw [if_neg (by omega)]; exact h

theorem update_timers_tick_witness :
    ((5 : Nat) > 0 → (update_timers (timer_state 5 1)).1.delay_timer = 5 - 1) ∧
    ((5 : Nat) = 0 → (update_timers (timer_state 5 1)).1.delay_timer = 0) ∧
    ((1 : Nat) > 0 → (update_timers (timer_state 5 1)).1.sound_timer = 1 - 1) ∧
    ((1 : Nat) = 0 → (update_timers (timer_state 5 1)).1.sound_timer = 0) ∧
    (update_timers (timer_state 5 1)).1.state = (timer_state 5 1).state ∧
    (update_timers (timer_state 5 1)).1.ram = (timer_state 5 1).ram ∧
    (update_timers (timer_state 5 1)).1.display = (timer_state 5 1).display ∧
    (update_timers (timer_state 5 1)).1.stack = (timer_state 5 1).stack ∧
    (update_timers (timer_state 5 1)).1.stack_ptr = (timer_state 5 1).stack_ptr ∧
    (update_timers (timer_state 5 1)).1.V = (timer_state 5 1).V ∧
    (update_timers (timer_state 5 1)).1.I = (timer_state 5 1).I ∧
    (update_timers (timer_state 5 1)).1.PC = (timer_state 5 1).PC ∧
    (update_timers (timer_state 5 1)).1.keypad = (timer_state 5 1).keypad ∧
    (update_timers (timer_state 5 1)).1.rom_name = (timer_state 5 1).rom_name ∧
    (update_timers (timer_state 5 1)).1.inst = (timer_state 5 1).inst ∧
    (update_timers (timer_state 5 1)).1.draw = (timer_state 5 1).draw :=
  update_timers_tick (timer_state 5 1) (timer_state_WF 5 1 (by decide) (by decide))

/-- Claim C14 as stated fails: on a tick that takes `sound_timer` from 1 to 0 the
audio device is unpaused (gate On) although `sound_timer` after the decrement
is 0. -/
theorem update_timers_gate_counterexample :
    ¬ ((update_timers (timer_state 0 1)).2 = true ↔
        (update_timers (timer_state 0 1)).1.sound_timer > 0) := by
  decide

/-- Claim C14, amended (audio gate): the gate that `update_timers` hands to the
audio device is On exactly when `sound_timer` is greater than 0 before this
tick's decrement, and Off exactly when it is 0 before the tick. -/
theorem update_timers_gate (s : chip8_t) :
    ((update_timers s).2 = true ↔ s.sound_timer > 0) ∧
    ((update_timers s).2 = false ↔ s.sound_timer = 0) := by
  rw [update_timers_eq]
  constructor
  · simp
  · simp

/-! ## Call and return (2NNN, 00EE) -/

/-- Fetch of the opcode with top nibble `k`, register nibble `X` and low byte
`NN`, and the top nibble the dispatcher sees. -/
theorem fetch_byte (s : chip8_t) (k X NN : Nat) (hk : k < 16) (hX : X < 16) (hNN : NN < 256)
    (hpc : s.PC + 1 < RAM_SIZE) (hhi : s.ram s.PC = 16 * k + X)
    (hlo : s.ram (s.PC + 1) = NN) :
    fetch s = .ok { s with
      inst := { opcode := 4096 * k + 256 * X + NN, NNN := 256 * X + NN,
                NN := NN, N := NN % 16, X := X, Y := NN / 16 },
      PC := s.PC + 2 } ∧
    ((4096 * k + 256 * X + NN) >>> 12) &&& 0xF = k := by
  have e : 16 * (NN / 16) + NN % 16 = NN := by omega
  have hf := fetch_nibbles s k X (NN / 16) (NN % 16) hk hX (by omega) (by omega) hpc hhi
    (by rw [hlo, e])
  have hn := (decode_nibbles k X (NN / 16) (NN % 16) hk hX (by omega) (by omega)).2
  have e1 : 4096 * k + 256 * X + 16 * (NN / 16) + NN % 16 = 4096 * k + 256 * X + NN := by omega
  have e2 : 256 * X + 16 * (NN / 16) + NN % 16 = 256 * X + NN := by omega
  rw [e1] at hn
  rw [e1, e2, e] at hf
  exact ⟨hf, hn⟩

/-- The whole step for the call 2NNN, in closed form. -/
theorem call_step (s : chip8_t) (config : config_t) (rand X NN : Nat)
    (hX : X < 16) (hNN : NN < 256) (hpc : s.PC + 1 < RAM_SIZE)
    (hhi : s.ram s.PC = 0x20 + X) (hlo : s.ram (s.PC + 1) = NN)
    (hsp : s.stack_ptr < 12) :
    emulate_instructions s config rand = .ok { s with
      inst := { opcode := 4096 * 2 + 256 * X + NN, NNN := 256 * X + NN,
                NN := NN, N := NN % 16, X := X, Y := NN / 16 },
      PC := 256 * X + NN,
      stack := store s.stack s.stack_ptr (s.PC + 2),
      stack_ptr := s.stack_ptr + 1 } := by
  obtain ⟨hf, hk⟩ := fetch_byte s 2 X NN (by omega) hX hNN hpc hhi hlo
  simp only [emulate_instructions, hf, execute, hk, STACK_SIZE]
  rw [if_pos hsp]

/-- The whole step for the return 00EE, in closed form. -/
theorem return_step (s : chip8_t) (config : config_t) (rand : Nat)
    (hpc : s.PC + 1 < RAM_SIZE)
    (hhi : s.ram s.PC = 0x00) (hlo : s.ram (s.PC + 1) = 0xEE)
    (hsp0 : 0 < s.stack_ptr) (hsp : s.stack_ptr ≤ 12) :
    emulate_instructions s config rand = .ok { s with
      inst := { opcode := 4096 * 0 + 256 * 0 + 0xEE, NNN := 256 * 0 + 0xEE,
                NN := 0xEE, N := 0xEE % 16, X := 0, Y := 0xEE / 16 },
      PC := s.stack (s.stack_ptr - 1),
      stack_ptr := s.stack_ptr - 1 } := by
  obtain ⟨hf, hk⟩ := fetch_byte s 0 0 0xEE (by omega) (by omega) (by omega) hpc hhi hlo
  simp only [emulate_instructions, hf, execute, hk, STACK_SIZE]
  rw [if_neg (show ¬ (238 = 224) by decide), if_pos True.intro,
    if_pos (show 0 < s.stack_ptr ∧ s.stack_ptr - 1 < 12 from ⟨hsp0, by omega⟩)]

/-- Claim C15 (call/return round trip): with stack depth `d < 12` and the call
2NNN at `PC = p`, the step ends with `PC = NNN`, depth `d + 1`, top entry
`p + 2` and all other stack entries unchanged.  From the state after the call,
and from every later state `t` at depth `d + 1` whose entry `d` still holds
`p + 2`, the return 00EE ends with `PC = p + 2`, depth `d` and the stack
entries unchanged; so the innermost pending call returns first. -/
theorem call_return_round_trip (s : chip8_t) (config : config_t) (rand rand2 X NN : Nat)
    (hX : X < 16) (hNN : NN < 256) (hpc : s.PC + 1 < RAM_SIZE)
    (hhi : s.ram s.PC = 0x20 + X) (hlo : s.ram (s.PC + 1) = NN)
    (hsp : s.stack_ptr < 12) :
    ∃ s1, emulate_instructions s config rand = .ok s1 ∧
      s1.PC = 256 * X + NN ∧ s1.stack_ptr = s.stack_ptr + 1 ∧
      s1.stack s.stack_ptr = s.PC + 2 ∧
      (∀ i, i ≠ s.stack_ptr → s1.stack i = s.stack i) ∧
      s1.ram = s.ram ∧
      (∀ t : chip8_t, t.stack_ptr = s1.stack_ptr → t.stack s.stack_ptr = s1.stack s.stack_ptr →
        t.PC + 1 < RAM_SIZE → t.ram t.PC = 0x00 → t.ram (t.PC + 1) = 0xEE →
        ∃ s2, emulate_instructions t config rand2 = .ok s2 ∧
          s2.PC = s.PC + 2 ∧ s2.stack_ptr = s.stack_ptr ∧ s2.stack = t.stack) := by
  refine ⟨_, call_step s config rand X NN hX hNN hpc hhi hlo hsp, rfl, rfl, ?_, ?_, rfl, ?_⟩
  · simp only [store, if_true]
  · intro i hi
    simp only [store, if_neg hi]
  · intro t htsp httop htpc hthi htlo
    simp only at htsp httop
    have htop : t.stack s.stack_ptr = s.PC + 2 := by
      rw [httop]; simp only [store, if_true]
    refine ⟨_, return_step t config rand2 htpc hthi htlo (by omega) (by omega), ?_, ?_, rfl⟩
    · show t.stack (t.stack_ptr - 1) = s.PC + 2
      rw [htsp, Nat.add_sub_cancel, htop]
    · show t.stack_ptr - 1 = s.stack_ptr
      omega

theorem call_return_round_trip_witness :
    ∃ s1, emulate_instructions call_state set_config 0 = .ok s1 ∧
      s1.PC = 0xABC ∧ s1.stack_ptr = 3 + 1 ∧ s1.stack 3 = 0x200 + 2 ∧
      (∀ i, i ≠ 3 → s1.stack i = call_state.stack i) ∧
      ∃ s2, emulate_instructions s1 set_config 0 = .ok s2 ∧
        s2.PC = 0x200 + 2 ∧ s2.stack_ptr = 3 ∧ s2.stack = s1.stack := by
  obtain ⟨s1, h1, hPC, hsp, htop, hlow, hram, hret⟩ :=
    call_return_round_trip call_state set_config 0 0 0xA 0xBC
      (by decide) (by decide) (by decide) (by decide) (by decide) (by decide)
  refine ⟨s1, h1, hPC, hsp, htop, hlow, hret s1 rfl rfl ?_ ?_ ?_⟩
  · rw [hPC]; decide
  · rw [hram, hPC]; decide
  · rw [hram, hPC]; decide

/-! ## Conditional skips (3XNN, 4XNN, 5XY0, 9XY0) -/

/-- Claim C16 (conditional skips): from a state with `PC = p`, one step ends with
`PC = p + 4` if the condition holds and `PC = p + 2` otherwise, where the
condition is `V[X] = NN` for 3XNN, `V[X] ≠ NN` for 4XNN, `V[X] = V[Y]` for 5XY0
and `V[X] ≠ V[Y]` for 9XY0; registers, `I`, memory, display, stack and timers
are unchanged by all four. -/
theorem conditional_skips (config : config_t) (rand X Y NN : Nat)
    (hX : X < 16) (hY : Y < 16) (hNN : NN < 256) :
    (∀ s : chip8_t, s.PC + 1 < RAM_SIZE → s.ram s.PC = 0x30 + X → s.ram (s.PC + 1) = NN →
      skip_outcome s config rand (s.V X = NN)) ∧
    (∀ s : chip8_t, s.PC + 1 < RAM_SIZE → s.ram s.PC = 0x40 + X → s.ram (s.PC + 1) = NN →
      skip_outcome s config rand (s.V X ≠ NN)) ∧
    (∀ s : chip8_t, s.PC + 1 < RAM_SIZE → s.ram s.PC = 0x50 + X → s.ram (s.PC + 1) = 16 * Y →
      skip_outcome s config rand (s.V X = s.V Y)) ∧
    (∀ s : chip8_t, s.PC + 1 < RAM_SIZE → s.ram s.PC = 0x90 + X → s.ram (s.PC + 1) = 16 * Y →
      skip_outcome s config rand (s.V X ≠ s.V Y)) := by
  refine ⟨?_, ?_, ?_, ?_⟩
  · intro s hpc hhi hlo
    obtain ⟨hf, hk⟩ := fetch_byte s 3 X NN (by omega) hX hNN hpc hhi hlo
    have h4 : (s.PC + 2 + 2) % 65536 = s.PC + 4 := by unfold RAM_SIZE at hpc; omega
    simp only [skip_outcome, emulate_instructions, hf, execute, hk, h4]
    by_cases hc : s.V X = NN
    · rw [if_pos hc]
      exact ⟨_, rfl, fun _ => rfl, fun h => absurd hc h, rfl, rfl, rfl, rfl, rfl, rfl, rfl, rfl⟩
    · rw [if_neg hc]
      exact ⟨_, rfl, fun h => absurd h hc, fun _ => rfl, rfl, rfl, rfl, rfl, rfl, rfl, rfl, rfl⟩
  · intro s hpc hhi hlo
    obtain ⟨hf, hk⟩ := fetch_byte s 4 X NN (by omega) hX hNN hpc hhi hlo
    have h4 : (s.PC + 2 + 2) % 65536 = s.PC + 4 := by unfold RAM_SIZE at hpc; omega
    simp only [skip_outcome, emulate_instructions, hf, execute, hk, h4]
    by_cases hc : s.V X ≠ NN
    · rw [if_pos hc]
      exact ⟨_, rfl, fun _ => rfl, fun h => absurd hc h, rfl, rfl, rfl, rfl, rfl, rfl, rfl, rfl⟩
    · rw [if_neg hc]
      exact ⟨_, rfl, fun h => absurd h hc, fun _ => rfl, rfl, rfl, rfl, rfl, rfl, rfl, rfl, rfl⟩
  · intro s hpc hhi hlo
    have hf := fetch_nibbles s 5 X Y 0 (by omega) hX hY (by omega) hpc hhi hlo
    have hk := (decode_nibbles 5 X Y 0 (by omega) hX hY (by omega)).2
    have h4 : (s.PC + 2 + 2) % 65536 = s.PC + 4 := by unfold RAM_SIZE at hpc; omega
    simp only [skip_outcome, emulate_instructions, hf, execute, hk, h4]
    by_cases hc : s.V X = s.V Y
    · rw [if_pos ⟨True.intro, hc⟩]
      exact ⟨_, rfl, fun _ => rfl, fun h => absurd hc h, rfl, rfl, rfl, rfl, rfl, rfl, rfl, rfl⟩
    · rw [if_neg (fun h => hc h.2)]
      exact ⟨_, rfl, fun h => absurd h hc, fun _ => rfl, rfl, rfl, rfl, rfl, rfl, rfl, rfl, rfl⟩
  · intro s hpc hhi hlo
    have hf := fetch_nibbles s 9 X Y 0 (by omega) hX hY (by omega) hpc hhi hlo
    have hk := (decode_nibbles 9 X Y 0 (by omega) hX hY (by omega)).2
    have h4 : (s.PC + 2 + 2) % 65536 = s.PC + 4 := by unfold RAM_SIZE at hpc; omega
    simp only [skip_outcome, emulate_instructions, hf, execute, hk, h4]
    by_cases hc : s.V X ≠ s.V Y
    · rw [if_pos ⟨True.intro, hc⟩]
      exact ⟨_, rfl, fun _ => rfl, fun h => absurd hc h, rfl, rfl, rfl, rfl, rfl, rfl, rfl, rfl⟩
    · rw [if_neg (fun h => hc h.2)]
      exact ⟨_, rfl, fun h => absurd h hc, fun _ => rfl, rfl, rfl, rfl, rfl, rfl, rfl, rfl, rfl⟩

theorem conditional_skips_witness :
    skip_outcome (alu_state 0x30 200) set_config 0 ((alu_state 0x30 200).V 0 = 200) ∧
    skip_outcome (alu_state 0x40 200) set_config 0 ((alu_state 0x40 200).V 0 ≠ 200) ∧
    skip_outcome (alu_state 0x50 0x10) set_config 0
      ((alu_state 0x50 0x10).V 0 = (alu_state 0x50 0x10).V 1) ∧
    skip_outcome (alu_state 0x90 0x10) set_config 0
      ((alu_state 0x90 0x10).V 0 ≠ (alu_state 0x90 0x10).V 1) :=
  ⟨(conditional_skips set_config 0 0 1 200 (by decide) (by decide) (by decide)).1
      (alu_state 0x30 200) (by decide) (by decide) (by decide),
   (conditional_skips set_config 0 0 1 200 (by decide) (by decide) (by decide)).2.1
      (alu_state 0x40 200) (by decide) (by decide) (by decide),
   (conditional_skips set_config 0 0 1 200 (by decide) (by decide) (by decide)).2.2.1
      (alu_state 0x50 0x10) (by decide) (by decide) (by decide),
   (conditional_skips set_config 0 0 1 200 (by decide) (by decide) (by decide)).2.2.2
      (alu_state 0x90 0x10) (by decide) (by decide) (by decide)⟩

/-! ## Immediate loads and adds (6XNN, 7XNN), end-to-end run -/

/-- Claim C17 (add-immediate, opcode 7XNN): after the step
`V[X] = (V[X] + NN) mod 256`, every other register keeps its value, and in
particular for `X ≠ 15` the flag register `V[15]` keeps its value even when
the sum exceeds 255. -/
theorem add_immediate_7XNN (s : chip8_t) (config : config_t) (rand X NN : Nat)
    (hX : X < 16) (hNN : NN < 256) (hpc : s.PC + 1 < RAM_SIZE)
    (hhi : s.ram s.PC = 0x70 + X) (hlo : s.ram (s.PC + 1) = NN) :
    ∃ s', emulate_instructions s config rand = .ok s' ∧
      s'.V X = (s.V X + NN) % 256 ∧
      (∀ i, i ≠ X → s'.V i = s.V i) ∧
      (X ≠ 15 → s'.V 15 = s.V 15) := by
  obtain ⟨hf, hk⟩ := fetch_byte s 7 X NN (by omega) hX hNN hpc hhi hlo
  simp only [emulate_instructions, hf, execute, hk]
  refine ⟨_, rfl, ?_, ?_, ?_⟩
  · simp only [store, if_true]
  · intro i hi
    simp only [store, if_neg hi]
  · intro h15
    simp only [store, if_neg (Ne.symm h15)]

theorem add_immediate_7XNN_witness :
    ∃ s', emulate_instructions (alu_state 0x70 100) set_config 0 = .ok s' ∧
      s'.V 0 = (200 + 100) % 256 ∧
      (∀ i, i ≠ 0 → s'.V i = (alu_state 0x70 100).V i) ∧
      ((0 : Nat) ≠ 15 → s'.V 15 = 0) :=
  add_immediate_7XNN (alu_state 0x70 100) set_config 0 0 100
    (by decide) (by decide) (by decide) (by decide) (by decide)

/-- The whole step for the immediate load 6XNN, in closed form. -/
theorem load_immediate_step (s : chip8_t) (config : config_t) (rand X NN : Nat)
    (hX : X < 16) (hNN : NN < 256) (hpc : s.PC + 1 < RAM_SIZE)
    (hhi : s.ram s.PC = 0x60 + X) (hlo : s.ram (s.PC + 1) = NN) :
    emulate_instructions s config rand = .ok { s with
      inst := { opcode := 4096 * 6 + 256 * X + NN, NNN := 256 * X + NN,
                NN := NN, N := NN % 16, X := X, Y := NN / 16 },
      PC := s.PC + 2,
      V := store s.V X NN } := by
  obtain ⟨hf, hk⟩ := fetch_byte s 6 X NN (by omega) hX hNN hpc hhi hlo
  simp only [emulate_instructions, hf, execute, hk]

/-- The whole step for the register add 8XY4, in closed form. -/
theorem alu_add_step (s : chip8_t) (config : config_t) (rand X Y : Nat)
    (hX : X < 16) (hY : Y < 16) (hpc : s.PC + 1 < RAM_SIZE)
    (hhi : s.ram s.PC = 0x80 + X) (hlo : s.ram (s.PC + 1) = 16 * Y + 4) :
    emulate_instructions s config rand = .ok { s with
      inst := { opcode := 4096 * 8 + 256 * X + 16 * Y + 4, NNN := 256 * X + 16 * Y + 4,
                NN := 16 * Y + 4, N := 4, X := X, Y := Y },
      PC := s.PC + 2,
      V := store (store s.V 0xF (if (s.V X + s.V Y) % 65536 > 255 then 1 else 0)) X
        ((store s.V 0xF (if (s.V X + s.V Y) % 65536 > 255 then 1 else 0) X
          + store s.V 0xF (if (s.V X + s.V Y) % 65536 > 255 then 1 else 0) Y) % 256) } := by
  have hf := fetch_nibbles s 8 X Y 4 (by omega) hX hY (by omega) hpc hhi hlo
  have hk := (decode_nibbles 8 X Y 4 (by omega) hX hY (by omega)).2
  simp only [emulate_instructions, hf, execute, hk]

/-- Claim C18 (end-to-end fetch/decode/execute): from a state with
`PC = p ≤ 4090` whose memory at `p..p+5` holds the bytes 60 05 61 02 80 14,
three consecutive steps succeed, fetch the opcodes 6005, 6102 and 8014, and
end with `V[0] = 7`, `V[1] = 2`, `V[15] = 0` and `PC = p + 6`. -/
theorem end_to_end_6005_6102_8014 (s : chip8_t) (config : config_t) (r1 r2 r3 : Nat)
    (hp : s.PC ≤ 4090)
    (h0 : s.ram s.PC = 0x60) (h1 : s.ram (s.PC + 1) = 0x05)
    (h2 : s.ram (s.PC + 2) = 0x61) (h3 : s.ram (s.PC + 3) = 0x02)
    (h4 : s.ram (s.PC + 4) = 0x80) (h5 : s.ram (s.PC + 5) = 0x14) :
    ∃ s1 s2 s3, emulate_instructions s config r1 = .ok s1 ∧
      emulate_instructions s1 config r2 = .ok s2 ∧
      emulate_instructions s2 config r3 = .ok s3 ∧
      s1.inst.opcode = 0x6005 ∧ s2.inst.opcode = 0x6102 ∧ s3.inst.opcode = 0x8014 ∧
      s3.V 0 = 7 ∧ s3.V 1 = 2 ∧ s3.V 15 = 0 ∧ s3.PC = s.PC + 6 := by
  have e1 := load_immediate_step s config r1 0 0x05 (by omega) (by omega)
    (by unfold RAM_SIZE; omega) h0 h1
  have e2 := load_immediate_step
    { s with
      inst := { opcode := 4096 * 6 + 256 * 0 + 0x05, NNN := 256 * 0 + 0x05,
                NN := 0x05, N := 0x05 % 16, X := 0, Y := 0x05 / 16 },
      PC := s.PC + 2,
      V := store s.V 0 0x05 }
    config r2 1 0x02 (by omega) (by omega) (by unfold RAM_SIZE; simp only; omega) h2 h3
  have e3 := alu_add_step
    { s with
      inst := { opcode := 4096 * 6 + 256 * 1 + 0x02, NNN := 256 * 1 + 0x02,
                NN := 0x02, N := 0x02 % 16, X := 1, Y := 0x02 / 16 },
      PC := s.PC + 2 + 2,
      V := store (store s.V 0 0x05) 1 0x02 }
    config r3 0 1 (by omega) (by omega) (by unfold RAM_SIZE; simp only; omega) h4 h5
  refine ⟨_, _, _, e1, e2, e3, rfl, rfl, rfl, ?_, ?_, ?_, ?_⟩
  · simp [store]
  · simp [store]
  · simp [store]
  · show s.PC + 2 + 2 + 2 = s.PC + 6
    omega

theorem end_to_end_6005_6102_8014_witness :
    ∃ s1 s2 s3, emulate_instructions program_state set_config 0 = .ok s1 ∧
      emulate_instructions s1 set_config 0 = .ok s2 ∧
      emulate_instructions s2 set_config 0 = .ok s3 ∧
      s1.inst.opcode = 0x6005 ∧ s2.inst.opcode = 0x6102 ∧ s3.inst.opcode = 0x8014 ∧
      s3.V 0 = 7 ∧ s3.V 1 = 2 ∧ s3.V 15 = 0 ∧ s3.PC = 0x200 + 6 :=
  end_to_end_6005_6102_8014 program_state set_config 0 0 0
    (by decide) (by decide) (by decide) (by decide) (by decide) (by decide) (by decide)

/-! ## Flag register as an operand of the ALU operations -/

/-- Claim C19, evaluated on the code with `X = 15`: from `V[15] = 0x83` and
`V[1] = 100` the opcodes 8F14, 8F15, 8F16, 8F17, 8F1E leave `V[15]` equal to
100, 157, 0, 100, 2, where the carry / no-borrow / shifted-out bit computed
from the values before the step is 0, 1, 1, 0, 1: the flag is written first
and the result of the operation is then stored over it. -/
theorem flag_overwritten_when_X_is_15 :
    V_after (emulate_instructions (flag_state 0x8F 0x14) set_config 0) 15 = some 100 ∧
    V_after (emulate_instructions (flag_state 0x8F 0x15) set_config 0) 15 = some 157 ∧
    V_after (emulate_instructions (flag_state 0x8F 0x16) set_config 0) 15 = some 0 ∧
    V_after (emulate_instructions (flag_state 0x8F 0x17) set_config 0) 15 = some 100 ∧
    V_after (emulate_instructions (flag_state 0x8F 0x1E) set_config 0) 15 = some 2 := by
  decide

/-- Claim C20, evaluated on the code with `Y = 15`, `X = 0`: from `V[0] = 200`
and `V[15] = 0x83 = 131` the opcodes 80F4, 80F5, 80F7 leave `V[0]` equal to
201, 199, 56, where `(a + b) mod 256`, `(a - b) mod 256`, `(b - a) mod 256` of
the values before the step are 75, 69, 187: the operation reads `V[15]` after
the flag has been written to it. -/
theorem operand_overwritten_when_Y_is_15 :
    V_after (emulate_instructions (flag_state 0x80 0xF4) set_config 0) 0 = some 201 ∧
    V_after (emulate_instructions (flag_state 0x80 0xF5) set_config 0) 0 = some 199 ∧
    V_after (emulate_instructions (flag_state 0x80 0xF7) set_config 0) 0 = some 56 := by
  decide

/-! ## Frame of register dump and load (FX55, FX65) -/

/-- Claim C26 (register dump/load frame): for a state with `I + X ≤ 4095`, FX55
writes `V[i]` to `ram[I + i]` for `i ≤ X` and changes no other memory byte and
no register; FX65 writes `ram[I + i]` to `V[i]` for `i ≤ X` and changes no
register above `X` and no memory byte; both leave `I` equal to its value
before the step. -/
theorem reg_dump_load_frame (config : config_t) (rand X : Nat) (hX : X < 16) :
    (∀ s : chip8_t, s.PC + 1 < RAM_SIZE → s.ram s.PC = 0xF0 + X → s.ram (s.PC + 1) = 0x55 →
      s.I + X ≤ 4095 →
      ∃ s', emulate_instructions s config rand = .ok s' ∧
        (∀ i, i ≤ X → s'.ram (s.I + i) = s.V i) ∧
        (∀ a, (a < s.I ∨ s.I + X < a) → s'.ram a = s.ram a) ∧
        s'.V = s.V ∧ s'.I = s.I) ∧
    (∀ s : chip8_t, s.PC + 1 < RAM_SIZE → s.ram s.PC = 0xF0 + X → s.ram (s.PC + 1) = 0x65 →
      s.I + X ≤ 4095 →
      ∃ s', emulate_instructions s config rand = .ok s' ∧
        (∀ i, i ≤ X → s'.V i = s.ram (s.I + i)) ∧
        (∀ i, X < i → s'.V i = s.V i) ∧
        s'.ram = s.ram ∧ s'.I = s.I) := by
  constructor
  · intro s hpc hhi hlo hI
    refine ⟨_, reg_dump_step s config rand X hX hpc hhi hlo hI, ?_, ?_, rfl, rfl⟩
    · intro i hi
      show dumped_ram s.ram s.V s.I 0 (X + 1) (s.I + i) = s.V i
      simp only [dumped_ram]
      rw [if_pos (by omega)]
      congr 1
      omega
    · intro a ha
      show dumped_ram s.ram s.V s.I 0 (X + 1) a = s.ram a
      simp only [dumped_ram]
      rw [if_neg (by omega)]
  · intro s hpc hhi hlo hI
    refine ⟨_, reg_load_step s config rand X hX hpc hhi hlo hI, ?_, ?_, rfl, rfl⟩
    · intro i hi
      show loaded_V s.ram s.V s.I 0 (X + 1) i = s.ram (s.I + i)
      simp only [loaded_V]
      rw [if_pos (by omega)]
    · intro i hi
      show loaded_V s.ram s.V s.I 0 (X + 1) i = s.V i
      simp only [loaded_V]
      rw [if_neg (by omega)]

theorem reg_dump_load_frame_witness :
    (∃ s', emulate_instructions (misc_state 0xF2 0x55 (fun _ => false)) set_config 0 = .ok s' ∧
        (∀ i, i ≤ 2 → s'.ram (0x300 + i) = 255 - i) ∧
        (∀ a, (a < 0x300 ∨ 0x300 + 2 < a) →
          s'.ram a = (misc_state 0xF2 0x55 (fun _ => false)).ram a) ∧
        s'.V = (misc_state 0xF2 0x55 (fun _ => false)).V ∧ s'.I = 0x300) ∧
    (∃ s', emulate_instructions (misc_state 0xF2 0x65 (fun _ => false)) set_config 0 = .ok s' ∧
        (∀ i, i ≤ 2 → s'.V i = (misc_state 0xF2 0x65 (fun _ => false)).ram (0x300 + i)) ∧
        (∀ i, 2 < i → s'.V i = 255 - i) ∧
        s'.ram = (misc_state 0xF2 0x65 (fun _ => false)).ram ∧ s'.I = 0x300) :=
  ⟨(reg_dump_load_frame set_config 0 2 (by decide)).1 (misc_state 0xF2 0x55 (fun _ => false))
      (by decide) (by decide) (by decide) (by decide),
   (reg_dump_load_frame set_config 0 2 (by decide)).2 (misc_state 0xF2 0x65 (fun _ => false))
      (by decide) (by decide) (by decide) (by decide)⟩

/-! ## Opcodes outside the instruction set -/

/-- Claim C25 (unknown opcodes are no-ops): for every opcode outside the
instruction set, that is 0XNN with `NN` other than E0 and EE, 5XYN and 9XYN
with `N ≠ 0`, 8XYN with `N` in `{8, 9, A, B, C, D, F}`, EXNN with `NN` other
than 9E and A1, and FXNN with `NN` outside `{07, 0A, 15, 18, 1E, 29, 33, 55,
65}`, a step changes only `PC`, which increases by 2: registers, `I`, memory,
display, stack, stack pointer, timers, keypad, redraw flag and run state are
unchanged. -/
theorem unknown_opcodes_noop (config : config_t) (rand X Y N NN : Nat)
    (hX : X < 16) (hY : Y < 16) (hN : N < 16) (hNN : NN < 256) :
    (∀ s : chip8_t, s.PC + 1 < RAM_SIZE → s.ram s.PC = 0x00 + X → s.ram (s.PC + 1) = NN →
      NN ≠ 0xE0 → NN ≠ 0xEE → noop_outcome s config rand) ∧
    (∀ s : chip8_t, s.PC + 1 < RAM_SIZE → s.ram s.PC = 0x50 + X →
      s.ram (s.PC + 1) = 16 * Y + N → N ≠ 0 → noop_outcome s config rand) ∧
    (∀ s : chip8_t, s.PC + 1 < RAM_SIZE → s.ram s.PC = 0x90 + X →
      s.ram (s.PC + 1) = 16 * Y + N → N ≠ 0 → noop_outcome s config rand) ∧
    (∀ s : chip8_t, s.PC + 1 < RAM_SIZE → s.ram s.PC = 0x80 + X →
      s.ram (s.PC + 1) = 16 * Y + N →
      (N = 0x8 ∨ N = 0x9 ∨ N = 0xA ∨ N = 0xB ∨ N = 0xC ∨ N = 0xD ∨ N = 0xF) →
      noop_outcome s config rand) ∧
    (∀ s : chip8_t, s.PC + 1 < RAM_SIZE → s.ram s.PC = 0xE0 + X → s.ram (s.PC + 1) = NN →
      NN ≠ 0x9E → NN ≠ 0xA1 → noop_outcome s config rand) ∧
    (∀ s : chip8_t, s.PC + 1 < RAM_SIZE → s.ram s.PC = 0xF0 + X → s.ram (s.PC + 1) = NN →
      NN ≠ 0x07 → NN ≠ 0x0A → NN ≠ 0x15 → NN ≠ 0x18 → NN ≠ 0x1E → NN ≠ 0x29 →
      NN ≠ 0x33 → NN ≠ 0x55 → NN ≠ 0x65 → noop_outcome s config rand) := by
  refine ⟨?_, ?_, ?_, ?_, ?_, ?_⟩
  · intro s hpc hhi hlo h1 h2
    obtain ⟨hf, hk⟩ := fetch_byte s 0 X NN (by omega) hX hNN hpc hhi hlo
    simp only [noop_outcome, emulate_instructions, hf, execute, hk]
    rw [if_neg h1, if_neg h2]
    exact ⟨_, rfl, rfl, rfl, rfl, rfl, rfl, rfl, rfl, rfl, rfl, rfl, rfl, rfl⟩
  · intro s hpc hhi hlo h0
    have hf := fetch_nibbles s 5 X Y N (by omega) hX hY hN hpc hhi hlo
    have hk := (decode_nibbles 5 X Y N (by omega) hX hY hN).2
    simp only [noop_outcome, emulate_instructions, hf, execute, hk]
    rw [if_neg (fun h => h0 h.1)]
    exact ⟨_, rfl, rfl, rfl, rfl, rfl, rfl, rfl, rfl, rfl, rfl, rfl, rfl, rfl⟩
  · intro s hpc hhi hlo h0
    have hf := fetch_nibbles s 9 X Y N (by omega) hX hY hN hpc hhi hlo
    have hk := (decode_nibbles 9 X Y N (by omega) hX hY hN).2
    simp only [noop_outcome, emulate_instructions, hf, execute, hk]
    rw [if_neg (fun h => h0 h.1)]
    exact ⟨_, rfl, rfl, rfl, rfl, rfl, rfl, rfl, rfl, rfl, rfl, rfl, rfl, rfl⟩
  · intro s hpc hhi hlo h8
    have hf := fetch_nibbles s 8 X Y N (by omega) hX hY hN hpc hhi hlo
    have hk := (decode_nibbles 8 X Y N (by omega) hX hY hN).2
    simp only [noop_outcome, emulate_instructions, hf, execute, hk]
    rcases h8 with h | h | h | h | h | h | h <;> subst h <;>
      exact ⟨_, rfl, rfl, rfl, rfl, rfl, rfl, rfl, rfl, rfl, rfl, rfl, rfl, rfl⟩
  · intro s hpc hhi hlo h1 h2
    obtain ⟨hf, hk⟩ := fetch_byte s 14 X NN (by omega) hX hNN hpc hhi hlo
    simp only [noop_outcome, emulate_instructions, hf, execute, hk]
    rw [if_neg h1, if_neg h2]
    exact ⟨_, rfl, rfl, rfl, rfl, rfl, rfl, rfl, rfl, rfl, rfl, rfl, rfl, rfl⟩
  · intro s hpc hhi hlo h1 h2 h3 h4 h5 h6 h7 h8 h9
    obtain ⟨hf, hk⟩ := fetch_byte s 15 X NN (by omega) hX hNN hpc hhi hlo
    simp only [noop_outcome, emulate_instructions, hf, execute, hk]
    exact ⟨_, rfl, rfl, rfl, rfl, rfl, rfl, rfl, rfl, rfl, rfl, rfl, rfl, rfl⟩

theorem unknown_opcodes_noop_witness :
    noop_outcome (alu_state 0x01 0x28) set_config 0 ∧
    noop_outcome (alu_state 0x51 0x28) set_config 0 ∧
    noop_outcome (alu_state 0x91 0x28) set_config 0 ∧
    noop_outcome (alu_state 0x81 0x28) set_config 0 ∧
    noop_outcome (alu_state 0xE1 0x28) set_config 0 ∧
    noop_outcome (alu_state 0xF1 0x28) set_config 0 :=
  ⟨(unknown_opcodes_noop set_config 0 1 2 8 0x28 (by decide) (by decide) (by decide)
      (by decide)).1 (alu_state 0x01 0x28) (by decide) (by decide) (by decide)
      (by decide) (by decide),
   (unknown_opcodes_noop set_config 0 1 2 8 0x28 (by decide) (by decide) (by decide)
      (by decide)).2.1 (alu_state 0x51 0x28) (by decide) (by decide) (by decide) (by decide),
   (unknown_opcodes_noop set_config 0 1 2 8 0x28 (by decide) (by decide) (by decide)
      (by decide)).2.2.1 (alu_state 0x91 0x28) (by decide) (by decide) (by decide) (by decide),
   (unknown_opcodes_noop set_config 0 1 2 8 0x28 (by decide) (by decide) (by decide)
      (by decide)).2.2.2.1 (alu_state 0x81 0x28) (by decide) (by decide) (by decide)
      (by decide),
   (unknown_opcodes_noop set_config 0 1 2 8 0x28 (by decide) (by decide) (by decide)
      (by decide)).2.2.2.2.1 (alu_state 0xE1 0x28) (by decide) (by decide) (by decide)
      (by decide) (by decide),
   (unknown_opcodes_noop set_config 0 1 2 8 0x28 (by decide) (by decide) (by decide)
      (by decide)).2.2.2.2.2 (alu_state 0xF1 0x28) (by decide) (by decide) (by decide)
      (by decide) (by decide) (by decide) (by decide) (by decide) (by decide) (by decide)
      (by decide) (by decide)⟩

/-! ## Key-skip opcodes (EX9E, EXA1) -/

/-- Claim C21 as stated fails: with `V[X] = 16` and `keypad[0]` set, EX9E does
not test `keypad[16 mod 16]`; it reads `keypad[16]`, outside the array, so no
state with `PC` advanced by the extra 2 results. -/
theorem key_skip_counterexample :
    fault_of (emulate_instructions (key_state 0xE0 0x9E 16) set_config 0) = some .keypad_oob ∧
    fault_of (emulate_instructions (key_state 0xE0 0xA1 16) set_config 0) = some .keypad_oob ∧
    ¬ ∃ s', emulate_instructions (key_state 0xE0 0x9E 16) set_config 0 = .ok s' ∧
      (s'.PC = (key_state 0xE0 0x9E 16).PC + 4 ↔
        (key_state 0xE0 0x9E 16).keypad ((key_state 0xE0 0x9E 16).V 0 % 16) = true) := by
  refine ⟨by decide, by decide, ?_⟩
  rintro ⟨s', h, -⟩
  have hf : fault_of (emulate_instructions (key_state 0xE0 0x9E 16) set_config 0)
      = some .keypad_oob := by decide
  rw [h] at hf
  cases hf

/-- Claim C21, amended (key-skip opcodes): for EX9E and EXA1 and every value of
`V[X]` in `0..15`, the keypad entry tested is `keypad[V[X]]`: EX9E advances
`PC` by an extra 2 iff `keypad[V[X]]` is set, and EXA1 advances `PC` by an extra
2 iff `keypad[V[X]]` is not set. -/
theorem key_skip_EX9E_EXA1 (config : config_t) (rand X : Nat) (hX : X < 16) :
    (∀ s : chip8_t, s.PC + 1 < RAM_SIZE → s.ram s.PC = 0xE0 + X → s.ram (s.PC + 1) = 0x9E →
      s.V X < 16 → skip_outcome s config rand (s.keypad (s.V X) = true)) ∧
    (∀ s : chip8_t, s.PC + 1 < RAM_SIZE → s.ram s.PC = 0xE0 + X → s.ram (s.PC + 1) = 0xA1 →
      s.V X < 16 → skip_outcome s config rand (s.keypad (s.V X) = false)) := by
  constructor
  · intro s hpc hhi hlo hv
    obtain ⟨hf, hk⟩ := fetch_byte s 14 X 0x9E (by omega) hX (by omega) hpc hhi hlo
    have h4 : (s.PC + 2 + 2) % 65536 = s.PC + 4 := by unfold RAM_SIZE at hpc; omega
    simp only [skip_outcome, emulate_instructions, hf, execute, hk, h4, KEYPAD_SIZE]
    rw [if_pos True.intro, if_pos hv]
    by_cases hc : s.keypad (s.V X) = true
    · rw [if_pos hc]
      exact ⟨_, rfl, fun _ => rfl, fun h => absurd hc h, rfl, rfl, rfl, rfl, rfl, rfl, rfl, rfl⟩
    · rw [if_neg hc]
      exact ⟨_, rfl, fun h => absurd h hc, fun _ => rfl, rfl, rfl, rfl, rfl, rfl, rfl, rfl, rfl⟩
  · intro s hpc hhi hlo hv
    obtain ⟨hf, hk⟩ := fetch_byte s 14 X 0xA1 (by omega) hX (by omega) hpc hhi hlo
    have h4 : (s.PC + 2 + 2) % 65536 = s.PC + 4 := by unfold RAM_SIZE at hpc; omega
    simp only [skip_outcome, emulate_instructions, hf, execute, hk, h4, KEYPAD_SIZE]
    rw [if_neg (show ¬ (161 = 158) by decide), if_pos True.intro, if_pos hv]
    by_cases hc : s.keypad (s.V X) = false
    · rw [if_pos hc]
      exact ⟨_, rfl, fun _ => rfl, fun h => absurd hc h, rfl, rfl, rfl, rfl, rfl, rfl, rfl, rfl⟩
    · rw [if_neg hc]
      exact ⟨_, rfl, fun h => absurd h hc, fun _ => rfl, rfl, rfl, rfl, rfl, rfl, rfl, rfl, rfl⟩

theorem key_skip_EX9E_EXA1_witness :
    skip_outcome (key_state 0xE0 0x9E 15) set_config 0
      ((key_state 0xE0 0x9E 15).keypad ((key_state 0xE0 0x9E 15).V 0) = true) ∧
    skip_outcome (key_state 0xE0 0xA1 15) set_config 0
      ((key_state 0xE0 0xA1 15).keypad ((key_state 0xE0 0xA1 15).V 0) = false) :=
  ⟨(key_skip_EX9E_EXA1 set_config 0 0 (by decide)).1 (key_state 0xE0 0x9E 15)
      (by decide) (by decide) (by decide) (by decide),
   (key_skip_EX9E_EXA1 set_config 0 0 (by decide)).2 (key_state 0xE0 0xA1 15)
      (by decide) (by decide) (by decide) (by decide)⟩

/-! ## Control fields: stack pointer, `I` and `PC` across a step -/

theorem draw_cols_ctrl (config : config_t) (sprite_data y : Nat) :
    ∀ (n j x : Nat) (s s' : chip8_t),
      draw_cols config sprite_data y n j x s = .ok s' → ctrl_eq s s' := by
  intro n
  induction n with
  | zero =>
    intro j x s s' h
    simp only [draw_cols] at h
    cases h
    exact ⟨rfl, rfl, rfl, rfl⟩
  | succ n ih =>
    intro j x s s' h
    simp only [draw_cols] at h
    split at h
    · split at h
      · cases h
        split <;> exact ⟨rfl, rfl, rfl, rfl⟩
      · have h' := ih _ _ _ _ h
        revert h'
        split <;> exact fun h' => h'
    · cases h

theorem ctrl_eq_trans {s s1 s2 : chip8_t} (h1 : ctrl_eq s s1) (h2 : ctrl_eq s1 s2) :
    ctrl_eq s s2 :=
  ⟨h2.1.trans h1.1, h2.2.1.trans h1.2.1, h2.2.2.1.trans h1.2.2.1, h2.2.2.2.trans h1.2.2.2⟩

theorem draw_rows_ctrl (config : config_t) (org_X : Nat) :
    ∀ (n i y : Nat) (s s' : chip8_t),
      draw_rows config org_X n i y s = .ok s' → ctrl_eq s s' := by
  intro n
  induction n with
  | zero =>
    intro i y s s' h
    simp only [draw_rows] at h
    cases h
    exact ⟨rfl, rfl, rfl, rfl⟩
  | succ n ih =>
    intro i y s s' h
    simp only [draw_rows] at h
    split at h
    · split at h
      · cases h
      · rename_i s1 hcols
        have h1 := draw_cols_ctrl config _ _ _ _ _ _ _ hcols
        split at h
        · cases h
          exact h1
        · exact ctrl_eq_trans h1 (ih _ _ _ _ h)
    · cases h

theorem draw_sprite_ctrl (s s' : chip8_t) (config : config_t)
    (h : draw_sprite s config = .ok s') : ctrl_eq s s' := by
  simp only [draw_sprite] at h
  split at h
  · cases h
  · split at h
    · cases h
    · split at h
      · cases h
      · rename_i s1 hrows
        have h1 := draw_rows_ctrl config _ _ _ _ _ _ hrows
        cases h
        exact h1

theorem bcd_loop_ctrl : ∀ (n bcd : Nat) (s s' : chip8_t),
    bcd_loop n bcd s = .ok s' → ctrl_eq s s' := by
  intro n
  induction n with
  | zero =>
    intro bcd s s' h
    simp only [bcd_loop] at h
    cases h
    exact ⟨rfl, rfl, rfl, rfl⟩
  | succ n ih =>
    intro bcd s s' h
    simp only [bcd_loop] at h
    split at h
    · have h' := ih _ _ _ h
      exact h'
    · cases h

theorem reg_dump_ctrl : ∀ (n i : Nat) (s s' : chip8_t),
    reg_dump n i s = .ok s' → ctrl_eq s s' := by
  intro n
  induction n with
  | zero =>
    intro i s s' h
    simp only [reg_dump] at h
    cases h
    exact ⟨rfl, rfl, rfl, rfl⟩
  | succ n ih =>
    intro i s s' h
    simp only [reg_dump] at h
    split at h
    · have h' := ih _ _ _ h
      exact h'
    · cases h

theorem reg_load_ctrl : ∀ (n i : Nat) (s s' : chip8_t),
    reg_load n i s = .ok s' → ctrl_eq s s' := by
  intro n
  induction n with
  | zero =>
    intro i s s' h
    simp only [reg_load] at h
    cases h
    exact ⟨rfl, rfl, rfl, rfl⟩
  | succ n ih =>
    intro i s s' h
    simp only [reg_load] at h
    split at h
    · have h' := ih _ _ _ h
      exact h'
    · cases h

/-- What one dispatch does to the stack pointer, the stack, `I` and `PC`. -/
theorem execute_ctrl (s s' : chip8_t) (config : config_t) (rand : Nat)
    (h : execute s config rand = .ok s') :
    ((s'.stack_ptr = s.stack_ptr ∧ s'.stack = s.stack) ∨
      (s.stack_ptr < 12 ∧ s'.stack_ptr = s.stack_ptr + 1 ∧
        s'.stack = store s.stack s.stack_ptr s.PC) ∨
      (0 < s.stack_ptr ∧ s.stack_ptr ≤ 12 ∧ s'.stack_ptr = s.stack_ptr - 1 ∧
        s'.stack = s.stack)) ∧
    (s'.I = s.I ∨ s'.I = s.inst.NNN ∨ s'.I < 65536) ∧
    (s'.PC = s.PC ∨ s'.PC = s.inst.NNN ∨ s'.PC < 65536 ∨
      (0 < s.stack_ptr ∧ s.stack_ptr ≤ 12 ∧ s'.PC = s.stack (s.stack_ptr - 1))) := by
  unfold execute at h
  simp only at h
  split at h
  all_goals (repeat' (split at h))
  all_goals first
    | (cases h; done)
    | (cases h
       refine ⟨?_, ?_, ?_⟩ <;> simp_all [STACK_SIZE, u16] <;> omega)
    | (have hc : ctrl_eq s s' := by
         first
           | exact draw_sprite_ctrl _ _ _ h
           | exact bcd_loop_ctrl _ _ _ _ h
           | exact reg_dump_ctrl _ _ _ _ h
           | exact reg_load_ctrl _ _ _ _ h
       exact ⟨Or.inl ⟨hc.1, hc.2.1⟩, Or.inl hc.2.2.1, Or.inl hc.2.2.2⟩)

/-- What a successful fetch produces. -/
theorem fetch_ok (s s1 : chip8_t) (h : fetch s = .ok s1) :
    s.PC + 1 < RAM_SIZE ∧ s1.stack_ptr = s.stack_ptr ∧ s1.stack = s.stack ∧ s1.I = s.I ∧
    s1.PC = (s.PC + 2) % 65536 ∧ s1.inst.NNN < 4096 := by
  unfold fetch at h
  split at h
  · split at h
    · rename_i hpc
      cases h
      refine ⟨hpc, rfl, rfl, rfl, rfl, ?_⟩
      show (decode _).NNN < 4096
      simp only [decode, and_mask_12]
      omega
    · cases h
  · cases h

/-- What one step does to the stack pointer, the stack, `I` and `PC`. -/
theorem step_ctrl (s s' : chip8_t) (config : config_t) (rand : Nat)
    (h : emulate_instructions s config rand = .ok s') :
    ((s'.stack_ptr = s.stack_ptr ∧ s'.stack = s.stack) ∨
      (s.stack_ptr < 12 ∧ s'.stack_ptr = s.stack_ptr + 1 ∧
        s'.stack = store s.stack s.stack_ptr ((s.PC + 2) % 65536)) ∨
      (0 < s.stack_ptr ∧ s.stack_ptr ≤ 12 ∧ s'.stack_ptr = s.stack_ptr - 1 ∧
        s'.stack = s.stack)) ∧
    (s'.I = s.I ∨ s'.I < 65536) ∧
    (s'.PC < 65536 ∨
      (0 < s.stack_ptr ∧ s.stack_ptr ≤ 12 ∧ s'.PC = s.stack (s.stack_ptr - 1))) := by
  unfold emulate_instructions at h
  split at h
  · cases h
  · rename_i s1 hfetch
    obtain ⟨-, f1, f2, f3, f4, f5⟩ := fetch_ok s s1 hfetch
    obtain ⟨e1, e2, e3⟩ := execute_ctrl s1 s' config rand h
    rw [f1, f2, f4] at e1
    rw [f3] at e2
    rw [f1, f2, f4] at e3
    refine ⟨e1, ?_, ?_⟩
    · rcases e2 with e | e | e
      · exact Or.inl e
      · right; omega
      · exact Or.inr e
    · rcases e3 with e | e | e | e
      · left; rw [e]; omega
      · left; omega
      · exact Or.inl e
      · exact Or.inr e

theorem init_chip8_loaded (chip8 : chip8_t) (rom_name : String) (file : List Nat)
    (h0 : 0 < file.length) (h1 : file.length ≤ 3584) :
    init_chip8 chip8 rom_name (some file) = .ok (loaded_state rom_name file) :=
  init_chip8_load chip8 rom_name file h0 h1

theorem init_chip8_ok_eq (chip8 : chip8_t) (rom_name : String) (rom : Option (List Nat))
    (s : chip8_t) (h : init_chip8 chip8 rom_name rom = .ok s) :
    ∃ file, s = loaded_state rom_name file := by
  obtain ⟨file, hrom, h0, h1⟩ := (init_chip8_success_iff chip8 rom_name rom).1 ⟨s, h⟩
  subst hrom
  rw [init_chip8_loaded chip8 rom_name file h0 h1] at h
  exact ⟨file, (Except.ok.inj h).symm⟩

theorem ok_of_no_fault (r : Except Fault chip8_t) (d : chip8_t) (h : fault_of r = none) :
    r = .ok (state_after r d) := by
  cases r with
  | error e => simp [fault_of] at h
  | ok s => rfl

theorem error_of_fault (r : Except Fault chip8_t) (e : Fault) (h : fault_of r = some e) :
    r = .error e := by
  cases r with
  | error e' =>
    simp only [fault_of, Option.some.injEq] at h
    rw [h]
  | ok s => simp [fault_of] at h

theorem reachable_run (config : config_t) (rand : Nat) :
    ∀ (n : Nat) (s s' : chip8_t), Reachable config s → run config rand n s = .ok s' →
      Reachable config s' := by
  intro n
  induction n with
  | zero =>
    intro s s' hs h
    simp only [run] at h
    cases h
    exact hs
  | succ n ih =>
    intro s s' hs h
    simp only [run] at h
    split at h
    · cases h
    · rename_i s1 hstep
      exact ih s1 s' (Reachable.step s rand s1 hs hstep) h

/-! ## Stack depth -/

/-- Claim C22 as stated fails: the code has no guard on the stack.  After the
twelve calls of `nested_calls` the machine is at depth 12 and the thirteenth
call stores its return address at `stack[12]`, outside the array; and a
program that starts with 00EE moves the stack pointer below the stack base and
reads `stack[-1]`.  Both steps end in the `stack_oob` fault. -/
theorem stack_depth_counterexample :
    (∃ s, Reachable set_config s ∧ s.stack_ptr = 12 ∧
      emulate_instructions s set_config 0 = .error .stack_oob) ∧
    (∃ s, Reachable set_config s ∧ s.stack_ptr = 0 ∧
      emulate_instructions s set_config 0 = .error .stack_oob) := by
  constructor
  · refine ⟨state_after (run set_config 0 12 (loaded_state "rom" nested_calls))
      (loaded_state "rom" nested_calls), ?_, by decide, ?_⟩
    · refine reachable_run set_config 0 12 (loaded_state "rom" nested_calls) _
        (Reachable.load (alu_state 0 0) "rom" (some nested_calls) _
          (init_chip8_loaded _ _ _ (by decide) (by decide))) ?_
      exact ok_of_no_fault _ _ (by decide)
    · exact error_of_fault _ _ (by decide)
  · refine ⟨loaded_state "rom" [0x00, 0xEE], ?_, rfl, ?_⟩
    · exact Reachable.load (alu_state 0 0) "rom" (some [0x00, 0xEE]) _
        (init_chip8_loaded _ _ _ (by decide) (by decide))
    · exact error_of_fault _ _ (by decide)

/-- Claim C22, amended (stack depth invariant): in every state reachable from a
successful load by any sequence of steps that complete (together with timer
ticks and input events), the stack depth `stack_ptr` is between 0 and 12. -/
theorem stack_depth_invariant (config : config_t) (s : chip8_t)
    (h : Reachable config s) : 0 ≤ s.stack_ptr ∧ s.stack_ptr ≤ 12 := by
  refine ⟨Nat.zero_le _, ?_⟩
  induction h with
  | load chip8 rom_name rom s hload =>
    obtain ⟨file, hs⟩ := init_chip8_ok_eq chip8 rom_name rom s hload
    rw [hs]
    show 0 ≤ 12
    omega
  | step s rand s' _ hstep ih =>
    obtain ⟨e1, -, -⟩ := step_ctrl s s' config rand hstep
    omega
  | tick s _ ih =>
    rw [update_timers_eq]
    exact ih
  | input s keypad state _ ih => exact ih

theorem stack_depth_invariant_witness :
    0 ≤ (state_after (run set_config 0 12 (loaded_state "rom" nested_calls))
        (loaded_state "rom" nested_calls)).stack_ptr ∧
    (state_after (run set_config 0 12 (loaded_state "rom" nested_calls))
        (loaded_state "rom" nested_calls)).stack_ptr ≤ 12 :=
  stack_depth_invariant set_config _
    (reachable_run set_config 0 12 (loaded_state "rom" nested_calls) _
      (Reachable.load (alu_state 0 0) "rom" (some nested_calls) _
        (init_chip8_loaded _ _ _ (by decide) (by decide)))
      (ok_of_no_fault _ _ (by decide)))

/-! ## Range of `I` and `PC` -/

/-- Claim C24 as stated fails: from states with `I ≤ 0xFFF` and `PC ≤ 0xFFF`,
index-add F01E with `I = 0xFFF`, `V[0] = 1` leaves `I = 0x1000`,
jump-with-offset BFFF with `V[0] = 1` leaves `PC = 0x1000`, and the fetch
advance from `PC = 0xFFE` leaves `PC = 0x1000`. -/
theorem addr_range_counterexample :
    ((addr_state 0x200 0xF0 0x1E).I ≤ 0xFFF ∧ (addr_state 0x200 0xF0 0x1E).PC ≤ 0xFFF ∧
      ∃ s', emulate_instructions (addr_state 0x200 0xF0 0x1E) set_config 0 = .ok s' ∧
        ¬ (s'.I ≤ 0xFFF ∧ s'.PC ≤ 0xFFF)) ∧
    ((addr_state 0x200 0xBF 0xFF).I ≤ 0xFFF ∧ (addr_state 0x200 0xBF 0xFF).PC ≤ 0xFFF ∧
      ∃ s', emulate_instructions (addr_state 0x200 0xBF 0xFF) set_config 0 = .ok s' ∧
        ¬ (s'.I ≤ 0xFFF ∧ s'.PC ≤ 0xFFF)) ∧
    ((addr_state 0xFFE 0x60 0x00).I ≤ 0xFFF ∧ (addr_state 0xFFE 0x60 0x00).PC ≤ 0xFFF ∧
      ∃ s', emulate_instructions (addr_state 0xFFE 0x60 0x00) set_config 0 = .ok s' ∧
        ¬ (s'.I ≤ 0xFFF ∧ s'.PC ≤ 0xFFF)) := by
  refine ⟨⟨by decide, by decide, _, ok_of_no_fault _ (addr_state 0 0 0) (by decide), by decide⟩,
    ⟨by decide, by decide, _, ok_of_no_fault _ (addr_state 0 0 0) (by decide), by decide⟩,
    ⟨by decide, by decide, _, ok_of_no_fault _ (addr_state 0 0 0) (by decide), by decide⟩⟩

/-- Claim C24, amended (address-range invariant): every step that completes
from a state whose fields fit their C types leaves `I ≤ 0xFFFF` and
`PC ≤ 0xFFFF`, the range of the two 16-bit fields; the code applies no 12-bit
mask to either. -/
theorem addr_range_16bit (s s' : chip8_t) (config : config_t) (rand : Nat)
    (hwf : s.WF) (h : emulate_instructions s config rand = .ok s') :
    s'.I ≤ 0xFFFF ∧ s'.PC ≤ 0xFFFF := by
  obtain ⟨-, e2, e3⟩ := step_ctrl s s' config rand h
  have hI := hwf.I_word
  constructor
  · rcases e2 with e | e <;> omega
  · rcases e3 with e | ⟨h0, h12, e⟩
    · omega
    · have hst := hwf.stack_word (s.stack_ptr - 1) (by unfold STACK_SIZE; omega)
      omega

theorem addr_range_16bit_witness :
    ∃ s', emulate_instructions (alu_state 0xF0 0x1E) set_config 0 = .ok s' ∧
      s'.I ≤ 0xFFFF ∧ s'.PC ≤ 0xFFFF :=
  ⟨_, ok_of_no_fault _ (alu_state 0 0) (by decide),
   addr_range_16bit (alu_state 0xF0 0x1E) _ set_config 0
     (alu_state_WF 0xF0 0x1E (by decide) (by decide))
     (ok_of_no_fault _ (alu_state 0 0) (by decide))⟩

/-! ## Memory accesses -/

theorem draw_cols_no_ram_oob (config : config_t) (sprite_data y : Nat) :
    ∀ (n j x : Nat) (s : chip8_t),
      draw_cols config sprite_data y n j x s ≠ .error .ram_oob := by
  intro n
  induction n with
  | zero =>
    intro j x s h
    simp only [draw_cols] at h
    cases h
  | succ n ih =>
    intro j x s h
    simp only [draw_cols] at h
    split at h
    · split at h
      · cases h
      · exact ih _ _ _ h
    · cases h

theorem draw_rows_no_ram_oob (config : config_t) (org_X : Nat) :
    ∀ (n i y : Nat) (s : chip8_t), s.I + i + n ≤ RAM_SIZE →
      draw_rows config org_X n i y s ≠ .error .ram_oob := by
  intro n
  induction n with
  | zero =>
    intro i y s _ h
    simp only [draw_rows] at h
    cases h
  | succ n ih =>
    intro i y s hI h
    simp only [draw_rows] at h
    split at h
    · split at h
      · rename_i e hcols
        cases h
        exact draw_cols_no_ram_oob config _ _ _ _ _ _ hcols
      · rename_i s1 hcols
        have hc := draw_cols_ctrl config _ _ _ _ _ _ _ hcols
        split at h
        · cases h
        · exact ih _ _ s1 (by rw [hc.2.2.1]; omega) h
    · omega

theorem draw_sprite_no_ram_oob (s : chip8_t) (config : config_t)
    (hI : s.I + s.inst.N ≤ 4096) : draw_sprite s config ≠ .error .ram_oob := by
  intro h
  simp only [draw_sprite] at h
  split at h
  · cases h
  · split at h
    · cases h
    · split at h
      · rename_i e hrows
        cases h
        exact draw_rows_no_ram_oob config _ _ _ _ _ (by unfold RAM_SIZE; simp only; omega) hrows
      · cases h

theorem bcd_loop_no_ram_oob (s : chip8_t) (bcd : Nat) (hI : s.I + 2 ≤ 4095) :
    bcd_loop 3 bcd s ≠ .error .ram_oob := by
  intro h
  simp only [bcd_loop, RAM_SIZE] at h
  rw [if_pos (by omega), if_pos (by omega), if_pos (by omega)] at h
  cases h

/-- A dispatch reads and writes memory inside `ram[0..4095]` when the sprite
rows, the BCD digits and the dumped or loaded registers lie inside it. -/
theorem execute_no_ram_oob (s : chip8_t) (config : config_t) (rand : Nat)
    (hD : (s.inst.opcode >>> 12) &&& 0xF = 0xD → s.I + s.inst.N ≤ 4096)
    (hB : (s.inst.opcode >>> 12) &&& 0xF = 0xF → s.inst.NN = 0x33 → s.I + 2 ≤ 4095)
    (hR : (s.inst.opcode >>> 12) &&& 0xF = 0xF → (s.inst.NN = 0x55 ∨ s.inst.NN = 0x65) →
      s.I + s.inst.X ≤ 4095) :
    execute s config rand ≠ .error .ram_oob := by
  intro h
  unfold execute at h
  simp only at h
  split at h
  all_goals (repeat' (split at h))
  all_goals first
    | cases h
    | exact draw_sprite_no_ram_oob s config (hD (by assumption)) h
    | exact bcd_loop_no_ram_oob s _ (hB (by assumption) (by assumption)) h
    | (have hI := hR (by assumption) (Or.inl (by assumption))
       rw [reg_dump_eq _ _ _ (by unfold RAM_SIZE; omega)] at h
       cases h)
    | (have hI := hR (by assumption) (Or.inr (by assumption))
       rw [reg_load_eq _ _ _ (by unfold RAM_SIZE; omega)] at h
       cases h)

/-- Claim C23 as stated fails: the code has no bounds check on `ram`.  After the
jump 1FFF of a loaded two-byte program the next fetch reads `ram[4096]`; and
after AFFF (`I = 0xFFF`) the dump F155 writes `ram[4096]`.  Both steps end in
the `ram_oob` fault. -/
theorem ram_bounds_counterexample :
    (∃ s, Reachable set_config s ∧ s.PC = 0xFFF ∧
      emulate_instructions s set_config 0 = .error .ram_oob) ∧
    (∃ s, Reachable set_config s ∧ s.I = 0xFFF ∧ s.PC = 0x202 ∧
      s.ram 0x202 = 0xF1 ∧ s.ram 0x203 = 0x55 ∧
      emulate_instructions s set_config 0 = .error .ram_oob) := by
  constructor
  · refine ⟨state_after (run set_config 0 1 (loaded_state "rom" [0x1F, 0xFF]))
      (loaded_state "rom" [0x1F, 0xFF]), ?_, by decide, ?_⟩
    · refine reachable_run set_config 0 1 (loaded_state "rom" [0x1F, 0xFF]) _
        (Reachable.load (alu_state 0 0) "rom" (some [0x1F, 0xFF]) _
          (init_chip8_loaded _ _ _ (by decide) (by decide))) ?_
      exact ok_of_no_fault _ _ (by decide)
    · exact error_of_fault _ _ (by decide)
  · refine ⟨state_after (run set_config 0 1 (loaded_state "rom" [0xAF, 0xFF, 0xF1, 0x55]))
      (loaded_state "rom" [0xAF, 0xFF, 0xF1, 0x55]), ?_, by decide, by decide, by decide,
      by decide, ?_⟩
    · refine reachable_run set_config 0 1 (loaded_state "rom" [0xAF, 0xFF, 0xF1, 0x55]) _
        (Reachable.load (alu_state 0 0) "rom" (some [0xAF, 0xFF, 0xF1, 0x55]) _
          (init_chip8_loaded _ _ _ (by decide) (by decide))) ?_
      exact ok_of_no_fault _ _ (by decide)
    · exact error_of_fault _ _ (by decide)

/-- Claim C23, amended (memory accesses in bounds): for a state with
`PC + 1 ≤ 4095` holding the opcode with nibbles `k X Y N` at `PC`, every ram
index that the step reads or writes lies in `0..4095` (the step does not end
in the `ram_oob` fault) provided `I + N ≤ 4096` for the sprite rows of DXYN,
`I + 2 ≤ 4095` for the BCD digits of FX33 and `I + X ≤ 4095` for the register
dump FX55 and load FX65. -/
theorem ram_access_in_bounds (s : chip8_t) (config : config_t) (rand k X Y N : Nat)
    (hk : k < 16) (hX : X < 16) (hY : Y < 16) (hN : N < 16)
    (hpc : s.PC + 1 ≤ 4095)
    (hhi : s.ram s.PC = 16 * k + X) (hlo : s.ram (s.PC + 1) = 16 * Y + N)
    (hD : k = 0xD → s.I + N ≤ 4096)
    (hB : k = 0xF → 16 * Y + N = 0x33 → s.I + 2 ≤ 4095)
    (hR : k = 0xF → (16 * Y + N = 0x55 ∨ 16 * Y + N = 0x65) → s.I + X ≤ 4095) :
    emulate_instructions s config rand ≠ .error .ram_oob := by
  have hf := fetch_nibbles s k X Y N hk hX hY hN (by unfold RAM_SIZE; omega) hhi hlo
  have hkk := (decode_nibbles k X Y N hk hX hY hN).2
  simp only [emulate_instructions, hf]
  apply execute_no_ram_oob
  · intro h
    simp only [hkk] at h
    exact hD h
  · intro h h33
    simp only [hkk] at h
    exact hB h h33
  · intro h h55
    simp only [hkk] at h
    exact hR h h55

theorem ram_access_in_bounds_witness :
    emulate_instructions (misc_state 0xFF 0x55 (fun _ => false)) set_config 0
      ≠ .error .ram_oob :=
  ram_access_in_bounds (misc_state 0xFF 0x55 (fun _ => false)) set_config 0 15 15 5 5
    (by decide) (by decide) (by decide) (by decide) (by decide) (by decide) (by decide)
    (by decide) (by decide) (by decide)

end Chip8
